import Mathlib

/-!
# Verification of the timefy calendar library

A shallow embedding, in Lean 4, of the Go library `sivaosorg/timefy` (calendar
arithmetic on timestamps: period boundaries, weekday enumeration, timezone
helpers, relative-time phrasing, and a tolerant multi-format date/time parser).

Modelling conventions:

* A Go `time.Time` is an absolute instant (`nanos`: nanoseconds since the Unix
  epoch, unbounded `Int`) paired with a location.  Locations are modelled as
  fixed offsets from UTC (a name plus an offset in seconds), which is exact for
  UTC and for every concrete zone used in the theorems below; daylight-saving
  transitions are outside the model.
* Wall-clock fields (year, month, day, hour, ...) are derived from the instant
  plus the offset, exactly as in Go.  The civil-calendar conversions follow the
  algorithm of Go's `time` package (`absDate`: splitting days into 400/100/4/1
  year cycles with the `n -= n >> 2` clamps, then the `daysBefore` table), and
  `time.Date`'s field normalisation (months folded into years by floored
  division, all finer fields folded linearly into the instant).
* Go's `int` is modelled as unbounded `Int`; the library never relies on
  overflow.  Go's `/` and `%` on the quantities appearing here agree with the
  Euclidean operations used below (all divisors are positive and, where a
  dividend can be negative, only divisibility by 4/100/400 is tested, on which
  truncated and Euclidean remainders agree).
-/

namespace Timefy


/-! ## Calendar core (Go `time` package internals) -/

/-- Nanoseconds per second. -/
def nsPerSec : Int := 1000000000

/-- Nanoseconds per minute. -/
def nsPerMin : Int := 60 * nsPerSec

/-- Nanoseconds per hour. -/
def nsPerHour : Int := 60 * nsPerMin

/-- Nanoseconds per day. -/
def nsPerDay : Int := 24 * nsPerHour

/-- `IsLeapYear` from `entry.go` (also Go's internal `isLeap`):
`year%4 == 0 && (year%100 != 0 || year%400 == 0)`. -/
def isLeapYear (year : Int) : Bool :=
  year % 4 == 0 && (year % 100 != 0 || year % 400 == 0)

/-- Days from January 1 of year 1 to January 1 of year `y` in the proleptic
Gregorian calendar (the closed form of Go's `daysSinceEpoch` cycle counting). -/
def daysToYearAbs (y : Int) : Int :=
  365 * (y - 1) + (y - 1) / 4 - (y - 1) / 100 + (y - 1) / 400

/-- Go's `absDate` year computation: split a day count (days since January 1 of
year 1) into 400-year, 100-year, 4-year and 1-year cycles, clamping the
100-year and 1-year quotients (`n -= n >> 2`) so that the final day of a
400-year or 4-year cycle stays in its last year.  Returns the year and the
zero-based day of the year. -/
def absDateDays (d0 : Int) : Int × Int :=
  let n1 := d0 / 146097
  let d1 := d0 - 146097 * n1
  let n2' := d1 / 36524
  let n2 := n2' - n2' / 4
  let d2 := d1 - 36524 * n2
  let n3 := d2 / 1461
  let d3 := d2 - 1461 * n3
  let n4' := d3 / 365
  let n4 := n4' - n4' / 4
  let d4 := d3 - 365 * n4
  (1 + 400 * n1 + 100 * n2 + 4 * n3 + n4, d4)

/-- Go's `daysBefore` table: days in a non-leap year before the start of
month `m+1`; `daysBefore 12 = 365`. -/
def daysBefore (m : Int) : Int :=
  if m ≤ 0 then 0
  else if m = 1 then 31
  else if m = 2 then 59
  else if m = 3 then 90
  else if m = 4 then 120
  else if m = 5 then 151
  else if m = 6 then 181
  else if m = 7 then 212
  else if m = 8 then 243
  else if m = 9 then 273
  else if m = 10 then 304
  else if m = 11 then 334
  else 365

/-- The month estimation step of Go's `absDate`: guess the month as `day/31`,
correct upward by one if the day reaches the next month's start, and convert to
a 1-based month with the day of the month. -/
def mdAfterAdj (day : Int) : Int × Int :=
  let m0 := day / 31
  let m := if day ≥ daysBefore (m0 + 1) then m0 + 1 else m0
  (m + 1, day - daysBefore m + 1)

/-- The month/day part of Go's `absDate`: in a leap year, day 59 (zero-based)
is February 29 and later days are shifted down by one before the table lookup. -/
def monthDayFromYday (leap : Bool) (yday : Int) : Int × Int :=
  if leap ∧ yday = 59 then (2, 29)
  else mdAfterAdj (if leap ∧ yday > 59 then yday - 1 else yday)

/-- Length of month `m` in a year with leap flag `leap` (the table part of
Go's `daysIn`). -/
def monthLen (leap : Bool) (m : Int) : Int :=
  if m = 2 ∧ leap then 29 else daysBefore m - daysBefore (m - 1)

/-- Days from the Unix epoch 1970-01-01 to the start of year 1 (i.e.
`daysToYearAbs 1970`). -/
def epochDays : Int := 719162

/-- Civil date `(year, month, day)` of a day count (days since 1970-01-01),
as computed by Go's `absDate`. -/
def civilFromDays (z : Int) : Int × Int × Int :=
  let yd := absDateDays (z + epochDays)
  let md := monthDayFromYday (isLeapYear yd.1) yd.2
  (yd.1, md.1, md.2)

/-- Day count (days since 1970-01-01) of a civil date, as computed by Go's
`time.Date` (`daysSinceEpoch` + `daysBefore` + leap adjustment + day offset).
The month is expected in `[1,12]`; the day may be any integer (Go lets day
overflow spill linearly into the instant). -/
def daysFromCivil (y m d : Int) : Int :=
  daysToYearAbs y + daysBefore (m - 1) +
    (if isLeapYear y ∧ 3 ≤ m then 1 else 0) + (d - 1) - epochDays

/-- Days in month `m` of year `y` (Go's `daysIn`). -/
def daysInMonth (y m : Int) : Int :=
  monthLen (isLeapYear y) m

/-! ## Model of Go `time.Time` (fixed-offset locations) -/

/-- A timezone location: a fixed offset east of UTC in seconds, with a name
(locations are compared by identity in Go; the name models that identity). -/
structure Loc where
  name : String
  offSec : Int
deriving Repr, DecidableEq

/-- `time.UTC`. -/
def utcLoc : Loc := ⟨"UTC", 0⟩

/-- A Go `time.Time`: an absolute instant (nanoseconds since the Unix epoch,
unbounded) together with its location. -/
structure GoTime where
  nanos : Int
  loc : Loc
deriving Repr, DecidableEq

/-- Wall-clock reading: nanoseconds since the Unix epoch as read on the local
clock. -/
def GoTime.wall (t : GoTime) : Int := t.nanos + t.loc.offSec * nsPerSec

/-- Local civil day count (days since 1970-01-01). -/
def GoTime.wallDays (t : GoTime) : Int := t.wall / nsPerDay

/-- Nanoseconds since local midnight. -/
def GoTime.tod (t : GoTime) : Int := t.wall % nsPerDay

/-- `Time.Date()`: the local `(year, month, day)`. -/
def GoTime.dateOf (t : GoTime) : Int × Int × Int := civilFromDays t.wallDays

/-- `Time.Year()`. -/
def GoTime.yearOf (t : GoTime) : Int := t.dateOf.1

/-- `Time.Month()` (as its integer value, January = 1). -/
def GoTime.monthOf (t : GoTime) : Int := t.dateOf.2.1

/-- `Time.Day()`. -/
def GoTime.dayOf (t : GoTime) : Int := t.dateOf.2.2

/-- `Time.Hour()`. -/
def GoTime.hourOf (t : GoTime) : Int := t.tod / nsPerHour

/-- `Time.Minute()`. -/
def GoTime.minuteOf (t : GoTime) : Int := t.tod % nsPerHour / nsPerMin

/-- `Time.Second()`. -/
def GoTime.secondOf (t : GoTime) : Int := t.tod % nsPerMin / nsPerSec

/-- `Time.Nanosecond()`. -/
def GoTime.nsecOf (t : GoTime) : Int := t.tod % nsPerSec

/-- `Time.Weekday()` (Sunday = 0): 1970-01-01 was a Thursday (= 4). -/
def GoTime.weekday (t : GoTime) : Int := (t.wallDays + 4) % 7

/-- Go `time.Date(y, m, d, hh, mi, ss, ns, loc)`: the month is normalised into
the year by floored division (Go's `norm`), and every finer field spills
linearly into the absolute instant. -/
def goDate (y m d hh mi ss ns : Int) (loc : Loc) : GoTime :=
  ⟨daysFromCivil (y + (m - 1) / 12) ((m - 1) % 12 + 1) d * nsPerDay
      + hh * nsPerHour + mi * nsPerMin + ss * nsPerSec + ns
      - loc.offSec * nsPerSec,
    loc⟩

/-- `Time.Add(d)`. -/
def GoTime.add (t : GoTime) (d : Int) : GoTime := ⟨t.nanos + d, t.loc⟩

/-- `Time.In(loc)`: same instant, different location. -/
def GoTime.inLoc (t : GoTime) (l : Loc) : GoTime := ⟨t.nanos, l⟩

/-- `Time.After(u)`: strict comparison of instants. -/
def GoTime.after (t u : GoTime) : Bool := decide (u.nanos < t.nanos)

/-- `Time.Before(u)`: strict comparison of instants. -/
def GoTime.before (t u : GoTime) : Bool := decide (t.nanos < u.nanos)

/-- `Time.AddDate(ys, ms, ds)`: re-run `time.Date` on shifted fields. -/
def GoTime.addDate (t : GoTime) (ys ms ds : Int) : GoTime :=
  goDate (t.yearOf + ys) (t.monthOf + ms) (t.dayOf + ds) t.hourOf t.minuteOf t.secondOf
    t.nsecOf t.loc

/-- `Time.Truncate(time.Minute)`: Go truncates the instant measured from
January 1 of year 1 UTC; that origin is a whole number of minutes before the
Unix epoch, so truncation reduces to clearing `nanos % nsPerMin`. -/
def GoTime.truncateMinute (t : GoTime) : GoTime :=
  ⟨t.nanos - t.nanos % nsPerMin, t.loc⟩

/-! ## Rule and Timex (`types.go`, `timefy.go`, `time.go`) -/

/-- `Rule` from the `unnamed/part_004` segment of `types.go`: week start day,
optional location, ordered layout list. -/
structure Rule where
  weekStartDay : Int
  timeLocation : Option Loc
  timeFormats : List String
deriving Repr, DecidableEq

/-- `Timex`: a timestamp paired with a `Rule`. -/
structure Timex where
  time : GoTime
  rule : Rule
deriving Repr, DecidableEq

/-- `Timex.BeginningOfMinute`: `t.Truncate(time.Minute)`. -/
def Timex.BeginningOfMinute (t : Timex) : GoTime := t.time.truncateMinute

/-- `Timex.BeginningOfHour`. -/
def Timex.BeginningOfHour (t : Timex) : GoTime :=
  goDate t.time.yearOf t.time.monthOf t.time.dayOf t.time.hourOf 0 0 0 t.time.loc

/-- `Timex.BeginningOfDay`. -/
def Timex.BeginningOfDay (t : Timex) : GoTime :=
  goDate t.time.yearOf t.time.monthOf t.time.dayOf 0 0 0 0 t.time.loc

/-- `Timex.BeginningOfWeek`: subtract days back to the configured week start
(`weekStartDay`, Sunday = 0). -/
def Timex.BeginningOfWeek (t : Timex) : GoTime :=
  let day := t.BeginningOfDay
  let weekday := day.weekday
  let weekday' :=
    if t.rule.weekStartDay ≠ 0 then
      if weekday < t.rule.weekStartDay then weekday + 7 - t.rule.weekStartDay
      else weekday - t.rule.weekStartDay
    else weekday
  day.addDate 0 0 (-weekday')

/-- `Timex.BeginningOfMonth`. -/
def Timex.BeginningOfMonth (t : Timex) : GoTime :=
  goDate t.time.yearOf t.time.monthOf 1 0 0 0 0 t.time.loc

/-- `Timex.BeginningOfQuarter`: back up `(month-1) % 3` months from the start
of the month. -/
def Timex.BeginningOfQuarter (t : Timex) : GoTime :=
  let month := t.BeginningOfMonth
  let offset := (month.monthOf - 1) % 3
  month.addDate 0 (-offset) 0

/-- `Timex.BeginningOfHalf`: back up `(month-1) % 6` months from the start of
the month. -/
def Timex.BeginningOfHalf (t : Timex) : GoTime :=
  let month := t.BeginningOfMonth
  let offset := (month.monthOf - 1) % 6
  month.addDate 0 (-offset) 0

/-- `Timex.BeginningOfYear`. -/
def Timex.BeginningOfYear (t : Timex) : GoTime :=
  goDate t.time.yearOf 1 1 0 0 0 0 t.time.loc

/-- `Timex.EndOfMinute`: `BeginningOfMinute + (1min - 1ns)`. -/
def Timex.EndOfMinute (t : Timex) : GoTime := t.BeginningOfMinute.add (nsPerMin - 1)

/-- `Timex.EndOfHour`: `BeginningOfHour + (1h - 1ns)`. -/
def Timex.EndOfHour (t : Timex) : GoTime := t.BeginningOfHour.add (nsPerHour - 1)

/-- `Timex.EndOfDay`: `time.Date(y, m, d, 23, 59, 59, 1e9-1, loc)`. -/
def Timex.EndOfDay (t : Timex) : GoTime :=
  goDate t.time.yearOf t.time.monthOf t.time.dayOf 23 59 59 (nsPerSec - 1) t.time.loc

/-- `Timex.EndOfWeek`: `BeginningOfWeek.AddDate(0,0,7) - 1ns`. -/
def Timex.EndOfWeek (t : Timex) : GoTime := (t.BeginningOfWeek.addDate 0 0 7).add (-1)

/-- `Timex.EndOfMonth`: `BeginningOfMonth.AddDate(0,1,0) - 1ns`. -/
def Timex.EndOfMonth (t : Timex) : GoTime := (t.BeginningOfMonth.addDate 0 1 0).add (-1)

/-- `Timex.EndOfQuarter`: `BeginningOfQuarter.AddDate(0,3,0) - 1ns`. -/
def Timex.EndOfQuarter (t : Timex) : GoTime := (t.BeginningOfQuarter.addDate 0 3 0).add (-1)

/-- `Timex.EndOfHalf`: `BeginningOfHalf.AddDate(0,6,0) - 1ns`. -/
def Timex.EndOfHalf (t : Timex) : GoTime := (t.BeginningOfHalf.addDate 0 6 0).add (-1)

/-- `Timex.EndOfYear`: `BeginningOfYear.AddDate(1,0,0) - 1ns`. -/
def Timex.EndOfYear (t : Timex) : GoTime := (t.BeginningOfYear.addDate 1 0 0).add (-1)

/-- `Timex.Quarter`: `(month-1)/3 + 1`. -/
def Timex.Quarter (t : Timex) : Int := (t.time.monthOf - 1) / 3 + 1

/-! ## Model of the Go layout parser (`time.ParseInLocation`)

The repository parses candidate strings through Go `time.ParseInLocation`
with the layouts of `TimeFormats` (`const.go`).  The definitions below follow
Go `time/format.go`, restricted to the layout chunks that actually occur in
those 39 layouts (`2006 06 1 01 2 02 _2 15 3 03 4 04 5 05 Jan Monday Mon MST
PM -0700 -07:00 -07 Z0700 Z07:00 Z07 .000 .000000 .000000000 .999999999`).
A parse error is modelled as `none`; the error value of `parseWithFormat`
carries the input string (Go wraps the same string in a fixed message).
Time-zone abbreviation chunks are consumed exactly as Go does; resolving an
abbreviation against a zone database is modelled against the fixed-offset
location in scope. -/

/-- Numeric value of an ASCII digit. -/
def digitVal (c : Char) : Int := (c.toNat : Int) - 48

/-- ASCII upper-case letter test. -/
def isUpperChar (c : Char) : Bool := 65 ≤ c.toNat && c.toNat ≤ 90

/-- ASCII lower-case letter test. -/
def isLowerChar (c : Char) : Bool := 97 ≤ c.toNat && c.toNat ≤ 122

/-- ASCII lower-casing (other characters unchanged). -/
def lowerChar (c : Char) : Char := if isUpperChar c then Char.ofNat (c.toNat + 32) else c

/-- Go regexp `\s`: space, tab, newline, form feed, carriage return. -/
def isSpaceChar (c : Char) : Bool :=
  c == ' ' || c == '\t' || c == '\n' || c == '\x0c' || c == '\r'

/-- Exact prefix test on character lists. -/
def startsWithChars : List Char → List Char → Bool
  | [], _ => true
  | _ :: _, [] => false
  | p :: ps, c :: cs => p == c && startsWithChars ps cs

/-- Exact prefix test against a string literal. -/
def startsWithLit (s : String) (l : List Char) : Bool := startsWithChars s.toList l

/-- Go `match`: ASCII case-insensitive prefix comparison. -/
def ciPrefix : List Char → List Char → Bool
  | [], _ => true
  | _ :: _, [] => false
  | p :: ps, c :: cs => lowerChar p == lowerChar c && ciPrefix ps cs

/-- Helper for `lookupTab`: scan the name table in order. -/
def lookupTabAux (v : List Char) : List String → Int → Option (Int × List Char)
  | [], _ => none
  | n :: rest, i =>
    if ciPrefix n.toList v then some (i, v.drop n.length) else lookupTabAux v rest (i + 1)

/-- Go `lookup`: index of the first table name that case-insensitively
prefixes the input, with the rest of the input. -/
def lookupTab (names : List String) (v : List Char) : Option (Int × List Char) :=
  lookupTabAux v names 0

/-- Go `shortMonthNames`. -/
def shortMonthNames : List String :=
  ["Jan", "Feb", "Mar", "Apr", "May", "Jun", "Jul", "Aug", "Sep", "Oct", "Nov", "Dec"]

/-- Go `longMonthNames`. -/
def longMonthNames : List String :=
  ["January", "February", "March", "April", "May", "June", "July", "August",
   "September", "October", "November", "December"]

/-- Go `shortDayNames`. -/
def shortDayNames : List String :=
  ["Sun", "Mon", "Tue", "Wed", "Thu", "Fri", "Sat"]

/-- Go `longDayNames`. -/
def longDayNames : List String :=
  ["Sunday", "Monday", "Tuesday", "Wednesday", "Thursday", "Friday", "Saturday"]

/-- Go `getnum`: one digit, or two when the second character is a digit;
`fixed` demands exactly two. -/
def getnum (v : List Char) (fixed : Bool) : Option (Int × List Char) :=
  match v with
  | [] => none
  | c1 :: rest =>
    if !c1.isDigit then none
    else
      match rest with
      | c2 :: rest2 =>
        if c2.isDigit then some (digitVal c1 * 10 + digitVal c2, rest2)
        else if fixed then none
        else some (digitVal c1, rest)
      | [] => if fixed then none else some (digitVal c1, [])

/-- Four-digit number (Go `stdLongYear` consumption). -/
def getnum4 (v : List Char) : Option (Int × List Char) :=
  match v with
  | a :: b :: c :: d :: rest =>
    if a.isDigit && b.isDigit && c.isDigit && d.isDigit then
      some (digitVal a * 1000 + digitVal b * 100 + digitVal c * 10 + digitVal d, rest)
    else none
  | _ => none

/-- The layout chunks of Go `nextStdChunk` used by the TimeFormats list. -/
inductive Chunk where
  | longYear | year2 | numMonth | zeroMonth | monthAbbr | longMonth
  | dayC | zeroDay | underDay
  | hourC | hour12 | zeroHour12 | minC | zeroMin | secC | zeroSec
  | wdayAbbr | wdayLong | pmU | pmL
  | tzName | numTZ | numShortTZ | numColonTZ | isoTZ | isoShortTZ | isoColonTZ
  | frac0 (n : Nat) | frac9 (n : Nat)
deriving Repr, DecidableEq

/-- Length of the leading run of a repeated character. -/
def countRun (c : Char) : List Char → Nat
  | [] => 0
  | x :: rest => if x == c then countRun c rest + 1 else 0

/-- Go `nextStdChunk`, as a test at the current layout position: the chunk
starting here (if any) and the rest of the layout. -/
def chunkAt (l : List Char) : Option (Chunk × List Char) :=
  match l with
  | [] => none
  | c :: rest =>
    if c == 'J' then
      if startsWithLit "January" l then some (.longMonth, l.drop 7)
      else if startsWithLit "Jan" l &&
          !(match l.drop 3 with | d :: _ => isLowerChar d | [] => false) then
        some (.monthAbbr, l.drop 3)
      else none
    else if c == 'M' then
      if startsWithLit "Monday" l then some (.wdayLong, l.drop 6)
      else if startsWithLit "Mon" l &&
          !(match l.drop 3 with | d :: _ => isLowerChar d | [] => false) then
        some (.wdayAbbr, l.drop 3)
      else if startsWithLit "MST" l then some (.tzName, l.drop 3)
      else none
    else if c == 'P' then
      if startsWithLit "PM" l then some (.pmU, l.drop 2) else none
    else if c == 'p' then
      if startsWithLit "pm" l then some (.pmL, l.drop 2) else none
    else if c == '1' then
      if startsWithLit "15" l then some (.hourC, l.drop 2) else some (.numMonth, rest)
    else if c == '2' then
      if startsWithLit "2006" l then some (.longYear, l.drop 4) else some (.dayC, rest)
    else if c == '_' then
      match rest with
      | '2' :: _ => if startsWithLit "_2006" l then none else some (.underDay, l.drop 2)
      | _ => none
    else if c == '3' then some (.hour12, rest)
    else if c == '4' then some (.minC, rest)
    else if c == '5' then some (.secC, rest)
    else if c == '0' then
      match rest with
      | d :: _ =>
        if d == '1' then some (.zeroMonth, l.drop 2)
        else if d == '2' then some (.zeroDay, l.drop 2)
        else if d == '3' then some (.zeroHour12, l.drop 2)
        else if d == '4' then some (.zeroMin, l.drop 2)
        else if d == '5' then some (.zeroSec, l.drop 2)
        else if d == '6' then some (.year2, l.drop 2)
        else none
      | [] => none
    else if c == '-' then
      if startsWithLit "-0700" l then some (.numTZ, l.drop 5)
      else if startsWithLit "-07:00" l then some (.numColonTZ, l.drop 6)
      else if startsWithLit "-07" l then some (.numShortTZ, l.drop 3)
      else none
    else if c == 'Z' then
      if startsWithLit "Z0700" l then some (.isoTZ, l.drop 5)
      else if startsWithLit "Z07:00" l then some (.isoColonTZ, l.drop 6)
      else if startsWithLit "Z07" l then some (.isoShortTZ, l.drop 3)
      else none
    else if c == '.' || c == ',' then
      match rest with
      | d :: _ =>
        if d == '0' || d == '9' then
          let n := countRun d rest
          if (match l.drop (1 + n) with | x :: _ => !x.isDigit | [] => true) then
            some (if d == '0' then .frac0 n else .frac9 n, l.drop (1 + n))
          else none
        else none
      | [] => none
    else none

/-- One element of a parsed layout: a literal character or a chunk. -/
inductive LayoutElem where
  | lit (c : Char)
  | std (ch : Chunk)
deriving Repr, DecidableEq

/-- Fueled layout scan (every step consumes at least one character). -/
def parseLayoutAux : Nat → List Char → List LayoutElem
  | 0, _ => []
  | _ + 1, [] => []
  | fuel + 1, c :: rest =>
    match chunkAt (c :: rest) with
    | some (ch, suf) => .std ch :: parseLayoutAux fuel suf
    | none => .lit c :: parseLayoutAux fuel rest

/-- A layout string as its element list. -/
def parseLayout (l : List Char) : List LayoutElem := parseLayoutAux l.length l

/-- The fields Go `Parse` accumulates while consuming a layout. -/
structure ParseAcc where
  year : Int := 0
  month : Int := -1
  day : Int := -1
  hour : Int := 0
  minV : Int := 0
  secV : Int := 0
  nsecV : Int := 0
  pmSet : Bool := false
  amSet : Bool := false
  zUTC : Bool := false
  zOff : Option Int := none
  zName : Option String := none
deriving Repr, DecidableEq

/-- Go `parseNanoseconds` on the digit characters after the separator:
scale a run of 1 to 9 digits up to nanoseconds. -/
def parseNanos (ds : List Char) : Option Int :=
  if ds.length == 0 || 9 < ds.length || !ds.all (·.isDigit) then none
  else some ((ds.foldl (fun a c => a * 10 + digitVal c) 0) * (10 : Int) ^ (9 - ds.length))

/-- Leading decimal digits of the input, with the remainder. -/
def leadingIntFrom (acc : Int) : List Char → Int × List Char
  | [] => (acc, [])
  | c :: rest =>
    if c.isDigit then leadingIntFrom (acc * 10 + digitVal c) rest else (acc, c :: rest)

/-- Go `parseSignedOffset`: length of a `+hh` / `-hh` prefix (0 on failure). -/
def parseSignedOffset (v : List Char) : Nat :=
  match v with
  | c :: rest =>
    if c == '+' || c == '-' then
      let p := leadingIntFrom 0 rest
      if p.2.length == rest.length then 0
      else if 23 < p.1 then 0
      else v.length - p.2.length
    else 0
  | [] => 0

/-- Go `parseGMT`: `GMT` optionally followed by a signed hour offset. -/
def parseGMT (v : List Char) : Nat :=
  let r := v.drop 3
  if r.isEmpty then 3 else 3 + parseSignedOffset r

/-- Length of the leading run of upper-case letters. -/
def countUpper : List Char → Nat
  | [] => 0
  | c :: rest => if isUpperChar c then countUpper rest + 1 else 0

/-- Go `parseTimeZone`: how many characters of the input form a zone
abbreviation. -/
def parseTimeZone (v : List Char) : Option Nat :=
  if v.length < 3 then none
  else if startsWithLit "ChST" v || startsWithLit "MeST" v then some 4
  else if startsWithLit "GMT" v then some (parseGMT v)
  else if (match v with | c :: _ => c == '+' || c == '-' | [] => false) then
    let n := parseSignedOffset v
    if 0 < n then some n else none
  else
    let nUpper := countUpper v
    if 6 ≤ nUpper then none
    else if nUpper == 5 then
      if (match v.drop 4 with | c :: _ => c == 'T' | [] => false) then some 5 else none
    else if nUpper == 4 then
      if (match v.drop 3 with | c :: _ => c == 'T' | [] => false) || startsWithLit "WITA" v then
        some 4
      else none
    else if nUpper == 3 then some 3
    else none

/-- Build a numeric zone offset from sign, hours and minutes. -/
def mkOff (acc : ParseAcc) (sign : Char) (hh mm r : List Char) :
    Option (ParseAcc × List Char) :=
  if !(sign == '+' || sign == '-') then none
  else if !(hh.all (·.isDigit) && mm.all (·.isDigit)) then none
  else
    let h := hh.foldl (fun a c => a * 10 + digitVal c) 0
    let m := mm.foldl (fun a c => a * 10 + digitVal c) 0
    let off := (h * 60 + m) * 60
    some ({ acc with zOff := some (if sign == '-' then -off else off) }, r)

/-- Numeric time-zone chunks (`-0700`, `-07`, `-07:00` and ISO variants after
the `Z` case is dispatched). -/
def parseOffsetChunk (acc : ParseAcc) (ch : Chunk) (v : List Char) :
    Option (ParseAcc × List Char) :=
  match ch with
  | .isoColonTZ | .numColonTZ =>
    match v with
    | s :: h1 :: h2 :: ':' :: m1 :: m2 :: r => mkOff acc s [h1, h2] [m1, m2] r
    | _ => none
  | .isoShortTZ | .numShortTZ =>
    match v with
    | s :: h1 :: h2 :: r => mkOff acc s [h1, h2] ['0', '0'] r
    | _ => none
  | _ =>
    match v with
    | s :: h1 :: h2 :: m1 :: m2 :: r => mkOff acc s [h1, h2] [m1, m2] r
    | _ => none

/-- Consume one chunk of the input (Go `Parse`, one `switch` arm).  The
`lookahead` is the next chunk of the remaining layout, used by the
fractional-second special case of the seconds chunk. -/
def applyChunk (acc : ParseAcc) (ch : Chunk) (lookahead : Option Chunk) (v : List Char) :
    Option (ParseAcc × List Char) :=
  match ch with
  | .longYear =>
    match getnum4 v with
    | some (y, r) => some ({ acc with year := y }, r)
    | none => none
  | .year2 =>
    match getnum v true with
    | some (y, r) => some ({ acc with year := if 69 ≤ y then y + 1900 else y + 2000 }, r)
    | none => none
  | .numMonth | .zeroMonth =>
    match getnum v (ch == .zeroMonth) with
    | some (m, r) => if m ≤ 0 || 12 < m then none else some ({ acc with month := m }, r)
    | none => none
  | .monthAbbr =>
    match lookupTab shortMonthNames v with
    | some (i, r) => some ({ acc with month := i + 1 }, r)
    | none => none
  | .longMonth =>
    match lookupTab longMonthNames v with
    | some (i, r) => some ({ acc with month := i + 1 }, r)
    | none => none
  | .dayC | .zeroDay | .underDay =>
    let v1 := if ch == .underDay then (match v with | ' ' :: r => r | _ => v) else v
    match getnum v1 (ch == .zeroDay) with
    | some (d, r) => some ({ acc with day := d }, r)
    | none => none
  | .hourC =>
    match getnum v false with
    | some (h, r) => if h < 0 || 24 ≤ h then none else some ({ acc with hour := h }, r)
    | none => none
  | .hour12 | .zeroHour12 =>
    match getnum v (ch == .zeroHour12) with
    | some (h, r) => if h < 0 || 12 < h then none else some ({ acc with hour := h }, r)
    | none => none
  | .minC | .zeroMin =>
    match getnum v (ch == .zeroMin) with
    | some (m, r) => if m < 0 || 60 ≤ m then none else some ({ acc with minV := m }, r)
    | none => none
  | .secC | .zeroSec =>
    match getnum v (ch == .zeroSec) with
    | some (s, r) =>
      if s < 0 || 60 ≤ s then none
      else
        match r with
        | sep :: d :: _ =>
          if (sep == '.' || sep == ',') && d.isDigit &&
              !(match lookahead with
                | some (.frac0 _) => true
                | some (.frac9 _) => true
                | _ => false) then
            match parseNanos ((r.drop 1).takeWhile (·.isDigit)) with
            | some ns =>
              some ({ acc with secV := s, nsecV := ns }, (r.drop 1).dropWhile (·.isDigit))
            | none => none
          else some ({ acc with secV := s }, r)
        | _ => some ({ acc with secV := s }, r)
    | none => none
  | .wdayAbbr =>
    match lookupTab shortDayNames v with
    | some (_, r) => some (acc, r)
    | none => none
  | .wdayLong =>
    match lookupTab longDayNames v with
    | some (_, r) => some (acc, r)
    | none => none
  | .pmU =>
    match v with
    | 'P' :: 'M' :: r => some ({ acc with pmSet := true }, r)
    | 'A' :: 'M' :: r => some ({ acc with amSet := true }, r)
    | _ => none
  | .pmL =>
    match v with
    | 'p' :: 'm' :: r => some ({ acc with pmSet := true }, r)
    | 'a' :: 'm' :: r => some ({ acc with amSet := true }, r)
    | _ => none
  | .tzName =>
    match parseTimeZone v with
    | some n => some ({ acc with zName := some (String.mk (v.take n)) }, v.drop n)
    | none => none
  | .isoTZ | .isoShortTZ | .isoColonTZ =>
    match v with
    | 'Z' :: r => some ({ acc with zUTC := true }, r)
    | _ => parseOffsetChunk acc ch v
  | .numTZ | .numShortTZ | .numColonTZ => parseOffsetChunk acc ch v
  | .frac0 n =>
    match v with
    | sep :: r =>
      if (sep == '.' || sep == ',') && n ≤ r.length && (r.take n).all (·.isDigit) then
        match parseNanos (r.take n) with
        | some ns => some ({ acc with nsecV := ns }, r.drop n)
        | none => none
      else none
    | [] => none
  | .frac9 _ =>
    match v with
    | sep :: d :: _ =>
      if (sep == '.' || sep == ',') && d.isDigit then
        match parseNanos ((v.drop 1).takeWhile (·.isDigit)) with
        | some ns => some ({ acc with nsecV := ns }, (v.drop 1).dropWhile (·.isDigit))
        | none => none
      else some (acc, v)
    | _ => some (acc, v)

/-- First chunk of the remaining layout (Go re-runs `nextStdChunk`). -/
def nextStdOf : List LayoutElem → Option Chunk
  | [] => none
  | .lit _ :: rest => nextStdOf rest
  | .std c :: _ => some c

/-- Run a parsed layout over the input, threading the accumulator; leftover
input is the "extra text" error. -/
def runLayout : List LayoutElem → List Char → ParseAcc → Option ParseAcc
  | [], v, acc => if v.isEmpty then some acc else none
  | .lit c :: rest, v, acc =>
    match v with
    | x :: vr => if x == c then runLayout rest vr acc else none
    | [] => none
  | .std ch :: rest, v, acc =>
    match applyChunk acc ch (nextStdOf rest) v with
    | some (acc1, v1) => runLayout rest v1 acc1
    | none => none

/-- Go `time.ParseInLocation(layout, s, loc)` over the model: run the layout,
apply AM/PM, default month and day, validate the day of month, and build the
time in the zone the input encoded (or in `loc`). -/
def goParseInLoc (layout s : String) (loc : Loc) : Option GoTime :=
  match runLayout (parseLayout layout.toList) s.toList {} with
  | none => none
  | some acc =>
    let hour := if acc.pmSet && acc.hour < 12 then acc.hour + 12
                else if acc.amSet && acc.hour == 12 then 0 else acc.hour
    let month := if acc.month < 0 then 1 else acc.month
    let day := if acc.day < 0 then 1 else acc.day
    if day < 1 || monthLen (isLeapYear acc.year) month < day then none
    else if acc.zUTC then
      some (goDate acc.year month day hour acc.minV acc.secV acc.nsecV utcLoc)
    else
      match acc.zOff with
      | some off =>
        let zloc := if loc.offSec == off then loc else Loc.mk (acc.zName.getD "") off
        some (goDate acc.year month day hour acc.minV acc.secV acc.nsecV zloc)
      | none =>
        match acc.zName with
        | some nm =>
          if nm == loc.name then
            some (goDate acc.year month day hour acc.minV acc.secV acc.nsecV loc)
          else some (goDate acc.year month day hour acc.minV acc.secV acc.nsecV (Loc.mk nm 0))
        | none => some (goDate acc.year month day hour acc.minV acc.secV acc.nsecV loc)

/-- `TimeFormats` of `const.go`, in order, with the standard-library layout
constants written out. -/
def defaultTimeFormats : List String :=
  ["2006", "2006-1", "2006-1-2", "2006-1-2 15", "2006-1-2 15:4", "2006-1-2 15:4:5",
   "1-2", "15:4:5", "15:4", "15",
   "15:4:5 Jan 2, 2006 MST",
   "2006-01-02 15:04:05.999999999 -0700 MST",
   "2006-01-02T15:04:05Z0700",
   "2006-01-02T15:04:05Z07",
   "2006.1.2", "2006.1.2 15:04:05", "2006.01.02", "2006.01.02 15:04:05",
   "2006.01.02 15:04:05.999999999",
   "1/2/2006", "1/2/2006 15:4:5", "2006/01/02", "20060102", "2006/01/02 15:04:05",
   "Mon Jan _2 15:04:05 2006",
   "Mon Jan _2 15:04:05 MST 2006",
   "Mon Jan 02 15:04:05 -0700 2006",
   "02 Jan 06 15:04 MST",
   "02 Jan 06 15:04 -0700",
   "Monday, 02-Jan-06 15:04:05 MST",
   "Mon, 02 Jan 2006 15:04:05 MST",
   "Mon, 02 Jan 2006 15:04:05 -0700",
   "2006-01-02T15:04:05Z07:00",
   "2006-01-02T15:04:05.999999999Z07:00",
   "3:04PM",
   "Jan _2 15:04:05",
   "Jan _2 15:04:05.000",
   "Jan _2 15:04:05.000000",
   "Jan _2 15:04:05.000000000"]

/-- The zero `time.Time` (January 1 of year 1, UTC): what a failed parse
leaves in the named return value. -/
def zeroGoTime : GoTime := goDate 1 1 1 0 0 0 0 utcLoc

/-- Loop of `Timex.parseWithFormat`: first layout that parses wins; when all
fail the value is the zero time and the error names the input string. -/
def parseWithFormatAux (s : String) (loc : Loc) : List String → GoTime × Option String
  | [] => (zeroGoTime, some s)
  | f :: rest =>
    match goParseInLoc f s loc with
    | some v => (v, none)
    | none => parseWithFormatAux s loc rest

/-- `Timex.parseWithFormat`. -/
def Timex.parseWithFormat (t : Timex) (s : String) (loc : Loc) : GoTime × Option String :=
  parseWithFormatAux s loc t.rule.timeFormats

/-! ### The two classification regexps of `const.go`

`ApplyTimeRegexp` and `OnlyTimeRegexp` are translated structurally:
alternations become disjunctions and the `\d{1,2}` choices are both tried,
which matches the behaviour of the backtracking engine on these patterns. -/

/-- Drop leading regexp whitespace. -/
def skipSpaces (l : List Char) : List Char := l.dropWhile isSpaceChar

/-- After one digit: the remainders allowed by `\d{1,2}` (two digits first,
then one). -/
def digitStarts (rest : List Char) : List (List Char) :=
  match rest with
  | d2 :: r2 => if d2.isDigit then [r2, rest] else [rest]
  | [] => [rest]

/-- Terminator `\s*$`. -/
def wsEnd (l : List Char) : Bool := (skipSpaces l).isEmpty

/-- Star of `(:\d{1,2})` groups followed by the terminator. -/
def starGroups (term : List Char → Bool) : Nat → List Char → Bool
  | 0, _ => false
  | fuel + 1, l =>
    term l ||
    (match l with
     | ':' :: d1 :: rest =>
       d1.isDigit && (digitStarts rest).any (fun r => starGroups term fuel r)
     | _ => false)

/-- The remainders after exactly one `(:\d{1,2})` group. -/
def afterOneGroup (l : List Char) : List (List Char) :=
  match l with
  | ':' :: d1 :: rest => if d1.isDigit then digitStarts rest else []
  | _ => []

/-- `\.(\d{3}|\d{6}|\d{9})` followed by the terminator. -/
def fracThen (term : List Char → Bool) (l : List Char) : Bool :=
  match l with
  | '.' :: rest =>
    ((rest.take 3).length == 3 && (rest.take 3).all (·.isDigit) && term (rest.drop 3)) ||
    ((rest.take 6).length == 6 && (rest.take 6).all (·.isDigit) && term (rest.drop 6)) ||
    ((rest.take 9).length == 9 && (rest.take 9).all (·.isDigit) && term (rest.drop 9))
  | _ => false

/-- Body after the leading digits: either colon groups then the terminator,
or two colon groups, a fraction and the terminator. -/
def bodyAfterDigits (term : List Char → Bool) (r : List Char) : Bool :=
  starGroups term (r.length + 1) r ||
  (afterOneGroup r).any (fun r2 => (afterOneGroup r2).any (fun r3 => fracThen term r3))

/-- `\d{1,2}` then the group body. -/
def bodyMatch (term : List Char → Bool) (l : List Char) : Bool :=
  match l with
  | d1 :: rest => d1.isDigit && (digitStarts rest).any (bodyAfterDigits term)
  | [] => false

/-- `OnlyTimeRegexp`: anchored at both ends. -/
def onlyTimeMatch (s : String) : Bool := bodyMatch wsEnd (skipSpaces s.toList)

/-- Terminator `(\s*$|[Z+-])` of `ApplyTimeRegexp`. -/
def applyTerm (l : List Char) : Bool :=
  wsEnd l || (match l with | c :: _ => c == 'Z' || c == '+' || c == '-' | [] => false)

/-- Scan for a `T` or a whitespace run introducing the time body. -/
def applyScan : List Char → Bool
  | [] => false
  | c :: rest =>
    (c == 'T' && bodyMatch applyTerm rest) ||
    (isSpaceChar c && bodyMatch applyTerm (skipSpaces rest)) ||
    applyScan rest

/-- `ApplyTimeRegexp.MatchString`: a match anywhere in the string. -/
def applyTimeMatch (s : String) : Bool :=
  bodyMatch applyTerm (skipSpaces s.toList) || applyScan s.toList

/-! ### `Timex.Parse` and its merge loop -/

/-- The component vector of `FormatTimex` (`entry.go`): nanosecond, second,
minute, hour, day, month, year — the iteration order of the merge loop. -/
structure TimeVec where
  ns : Int
  sec : Int
  minute : Int
  hour : Int
  day : Int
  month : Int
  year : Int
deriving Repr, DecidableEq

/-- `FormatTimex(t)`. -/
def FormatTimex (t : GoTime) : TimeVec :=
  ⟨t.nsecOf, t.secondOf, t.minuteOf, t.hourOf, t.dayOf, t.monthOf, t.yearOf⟩

/-- One step of the merge loop of `Timex.Parse`: skip the field (`continue`
for clock fields when the string carries a time), otherwise replace a zero
component from the running reference once a nonzero one has been seen, then
force day and month from the reference for time-only input. -/
def mergeOne (skip force : Bool) (v cur : Int) (set : Bool) : Int × Bool :=
  if skip then (v, set)
  else
    let p := if v == 0 then (if set then cur else v) else v
    let set1 := if v == 0 then set else true
    if force then (cur, set1) else (p, set1)

/-- The merge loop over the seven components in order. -/
def mergeVec (hasT onlyT set0 : Bool) (pt cur : TimeVec) : TimeVec × Bool :=
  let r0 := mergeOne hasT false pt.ns cur.ns set0
  let r1 := mergeOne hasT false pt.sec cur.sec r0.2
  let r2 := mergeOne hasT false pt.minute cur.minute r1.2
  let r3 := mergeOne hasT false pt.hour cur.hour r2.2
  let r4 := mergeOne false onlyT pt.day cur.day r3.2
  let r5 := mergeOne false onlyT pt.month cur.month r4.2
  let r6 := mergeOne false false pt.year cur.year r5.2
  (⟨r0.1, r1.1, r2.1, r3.1, r4.1, r5.1, r6.1⟩, r6.2)

/-- The candidate loop of `Timex.Parse`: the named return values `value` and
`err` are reassigned by every `parseWithFormat` call, successful or not. -/
def parseLoopAux (t : Timex) (loc : Loc) :
    List String → Bool → Bool → TimeVec → GoTime × Option String
  | [], _, _, _ => (zeroGoTime, none)
  | str :: rest, setCT, onlyT, curT =>
    let hasT := applyTimeMatch str
    let onlyT1 := hasT && onlyT && onlyTimeMatch str
    match h : t.parseWithFormat str loc with
    | (v, none) =>
      let pt := FormatTimex v
      let m := mergeVec hasT onlyT1 setCT pt curT
      let value1 := goDate m.1.year m.1.month m.1.day m.1.hour m.1.minute m.1.sec m.1.ns v.loc
      match rest with
      | [] => (value1, none)
      | _ => parseLoopAux t loc rest m.2 onlyT1 (FormatTimex value1)
    | (v, some e) =>
      match rest with
      | [] => (v, some e)
      | _ => parseLoopAux t loc rest setCT onlyT1 curT

/-- `Timex.Parse`: thread the loop; with no candidates the zero time and a
nil error are returned. -/
def Timex.Parse (t : Timex) (ss : List String) : GoTime × Option String :=
  parseLoopAux t t.time.loc ss false true (FormatTimex t.time)

/-- `Timex.MustParse`: `none` models the panic on a parse error. -/
def Timex.MustParse (t : Timex) (ss : List String) : Option GoTime :=
  match t.Parse ss with
  | (v, none) => some v
  | (_, some _) => none

/-- `Timex.Between`: both bounds via `MustParse` (a panic propagates), then
strict comparisons. -/
def Timex.Between (t : Timex) (b e : String) : Option Bool :=
  match t.MustParse [b] with
  | none => none
  | some bt =>
    match t.MustParse [e] with
    | none => none
    | some et => some (t.time.after bt && t.time.before et)

/-! ## Functions of `entry.go`, `timefy.go`, `types.go` and the
relative-time tables -/

/-- A fixed-offset fragment of the IANA zone database (`time.LoadLocation`):
the zones the claims exercise; every other name fails to load, as any
unknown name does in Go. -/
def loadLocation : String → Option Loc
  | "UTC" => some utcLoc
  | "Asia/Ho_Chi_Minh" => some ⟨"Asia/Ho_Chi_Minh", 25200⟩
  | _ => none

/-- `SetTimezone` (`entry.go`): convert on success, return the input and the
error on lookup failure (the error value carries the zone name). -/
def SetTimezone (v : GoTime) (tz : String) : GoTime × Option String :=
  match loadLocation tz with
  | none => (v, some tz)
  | some loc => (v.inLoc loc, none)

/-- `AdjustTimezone` (`entry.go`): swallow the error and keep the input. -/
def AdjustTimezone (v : GoTime) (tz : String) : GoTime :=
  match SetTimezone v tz with
  | (t, none) => t
  | (_, some _) => v

/-- Loop of `GetWeekdaysInRange`: iterate while `current` is not after `end`
(instants compared), keep non-weekend days subject to the leap-year branch,
step one calendar day.  The fuel bounds the day count. -/
def getWeekdaysAux (endT : GoTime) : Nat → GoTime → List GoTime
  | 0, _ => []
  | fuel + 1, current =>
    if current.before endT || current.nanos == endT.nanos then
      (if current.weekday != 0 && current.weekday != 6 then
        (if isLeapYear current.yearOf && current.monthOf == 2 && current.dayOf == 29 then
          [current]
        else if !isLeapYear current.yearOf &&
            current.dayOf ≤ (goDate current.yearOf 12 31 0 0 0 0 utcLoc).dayOf then
          [current]
        else [])
      else []) ++ getWeekdaysAux endT fuel (current.addDate 0 0 1)
    else []

/-- `GetWeekdaysInRange` (`entry.go`). -/
def GetWeekdaysInRange (start endT : GoTime) : List GoTime :=
  getWeekdaysAux endT (((endT.nanos - start.nanos) / nsPerDay).toNat + 2) start

/-- `BeginOfDay` (`timefy.go`): midnight of the wall date of `v`, but built
in `v.Local().Location()` — the system-local zone, a parameter here. -/
def BeginOfDay (localLoc : Loc) (v : GoTime) : GoTime :=
  goDate v.yearOf v.monthOf v.dayOf 0 0 0 0 localLoc

/-- `Rule.WithLocationRFC` (`types.go`): `c.timeLocation, _ =
time.LoadLocation(...)` — the lookup result is stored unconditionally and
the error discarded. -/
def Rule.WithLocationRFC (c : Rule) (location : String) : Rule :=
  { c with timeLocation := loadLocation location }

/-- `Timex.TimeAgo` as a function of the duration `now.Sub(t.Time)` in
nanoseconds.  Go truncates float durations toward zero; on the exactly
representable quotients the claims evaluate this is `Int.tdiv`. -/
def timeAgoOfDiff (diff : Int) : String :=
  let seconds := Int.tdiv diff nsPerSec
  let minutes := Int.tdiv diff nsPerMin
  let hours := Int.tdiv diff nsPerHour
  let days := Int.tdiv diff nsPerDay
  if seconds < 60 then "just now"
  else if minutes < 2 then "1 minute ago"
  else if minutes < 60 then toString minutes ++ " minutes ago"
  else if hours < 2 then "1 hour ago"
  else if hours < 24 then toString hours ++ " hours ago"
  else if days < 2 then "1 day ago"
  else if days < 7 then toString days ++ " days ago"
  else if days < 14 then "1 week ago"
  else if days < 30 then toString (Int.tdiv days 7) ++ " weeks ago"
  else if days < 60 then "1 month ago"
  else if days < 365 then toString (Int.tdiv days 30) ++ " months ago"
  else if days < 730 then "1 year ago"
  else toString (Int.tdiv days 365) ++ " years ago"

/-- `Timex.TimeUntil` as a function of the duration `time.Until(t.Time)`:
negative durations short-circuit before the table. -/
def timeUntilOfDiff (diff : Int) : String :=
  if diff < 0 then "in the past"
  else
    let seconds := Int.tdiv diff nsPerSec
    let minutes := Int.tdiv diff nsPerMin
    let hours := Int.tdiv diff nsPerHour
    let days := Int.tdiv diff nsPerDay
    if seconds < 60 then "in a few seconds"
    else if minutes < 2 then "in 1 minute"
    else if minutes < 60 then "in " ++ toString minutes ++ " minutes"
    else if hours < 2 then "in 1 hour"
    else if hours < 24 then "in " ++ toString hours ++ " hours"
    else if days < 2 then "in 1 day"
    else if days < 7 then "in " ++ toString days ++ " days"
    else if days < 14 then "in 1 week"
    else if days < 30 then "in " ++ toString (Int.tdiv days 7) ++ " weeks"
    else if days < 60 then "in 1 month"
    else if days < 365 then "in " ++ toString (Int.tdiv days 30) ++ " months"
    else if days < 730 then "in 1 year"
    else "in " ++ toString (Int.tdiv days 365) ++ " years"

/-- `NewRule()` (`types.go`): Sunday week start, no location, the default
format list. -/
def defaultRule : Rule := ⟨0, none, defaultTimeFormats⟩

/-- A reference `Timex` wrapping 2024-03-15 10:00:00 UTC. -/
def refMarch : Timex := ⟨goDate 2024 3 15 10 0 0 0 utcLoc, defaultRule⟩

/-- A reference `Timex` wrapping 2023-10-15 10:00:00 UTC. -/
def refOct : Timex := ⟨goDate 2023 10 15 10 0 0 0 utcLoc, defaultRule⟩

/-! ## Theorems -/

/-! ### Correctness of the civil-calendar conversions -/

/-- `daysToYearAbs` on a year presented in 400/100/4/1-cycle coordinates. -/
theorem daysToYearAbs_decomp (a b c d : Int) (hb : 0 ≤ b ∧ b ≤ 3) (hc : 0 ≤ c ∧ c ≤ 24)
    (hd : 0 ≤ d ∧ d ≤ 3) :
    daysToYearAbs (1 + 400 * a + 100 * b + 4 * c + d)
      = 146097 * a + 36524 * b + 1461 * c + 365 * d := by
  unfold daysToYearAbs
  have h4 : (1 + 400 * a + 100 * b + 4 * c + d - 1) / 4 = 100 * a + 25 * b + c := by omega
  have h100 : (1 + 400 * a + 100 * b + 4 * c + d - 1) / 100 = 4 * a + b := by omega
  have h400 : (1 + 400 * a + 100 * b + 4 * c + d - 1) / 400 = a := by omega
  omega

/-- Leap years in 400/100/4/1-cycle coordinates: the year is leap iff it is the
last year of a 4-year cycle that is not the last of a century, or the last year
of a 400-year cycle. -/
theorem isLeapYear_decomp (a b c d : Int) (hb : 0 ≤ b ∧ b ≤ 3) (hc : 0 ≤ c ∧ c ≤ 24)
    (hd : 0 ≤ d ∧ d ≤ 3) :
    (isLeapYear (1 + 400 * a + 100 * b + 4 * c + d) = true) ↔ (d = 3 ∧ (c ≠ 24 ∨ b = 3)) := by
  unfold isLeapYear
  simp only [Bool.and_eq_true, Bool.or_eq_true, beq_iff_eq, bne_iff_ne]
  omega

theorem absDateDays_spec_aux (d0 n1 n2' c2 n3 n4' c4 : Int)
    (h1 : d0 / 146097 = n1)
    (h2 : (d0 - 146097 * n1) / 36524 = n2')
    (h2a : n2' / 4 = c2)
    (h3 : (d0 - 146097 * n1 - 36524 * (n2' - c2)) / 1461 = n3)
    (h4 : (d0 - 146097 * n1 - 36524 * (n2' - c2) - 1461 * n3) / 365 = n4')
    (h4a : n4' / 4 = c4) :
    daysToYearAbs (1 + 400 * n1 + 100 * (n2' - c2) + 4 * n3 + (n4' - c4)) +
        (d0 - 146097 * n1 - 36524 * (n2' - c2) - 1461 * n3 - 365 * (n4' - c4)) = d0 ∧
      0 ≤ d0 - 146097 * n1 - 36524 * (n2' - c2) - 1461 * n3 - 365 * (n4' - c4) ∧
      d0 - 146097 * n1 - 36524 * (n2' - c2) - 1461 * n3 - 365 * (n4' - c4) ≤
        364 + (if isLeapYear (1 + 400 * n1 + 100 * (n2' - c2) + 4 * n3 + (n4' - c4)) then 1
          else 0) := by
  have hb1 : 146097 * n1 ≤ d0 ∧ d0 < 146097 * n1 + 146097 := by omega
  have hb2 : (0 ≤ n2' ∧ n2' ≤ 3 ∧ c2 = 0 ∧
        36524 * n2' ≤ d0 - 146097 * n1 ∧ d0 - 146097 * n1 < 36524 * n2' + 36524) ∨
      (n2' = 4 ∧ c2 = 1 ∧ d0 - 146097 * n1 = 146096) := by omega
  have hb3 : 0 ≤ n3 ∧ n3 ≤ 24 ∧ 1461 * n3 ≤ d0 - 146097 * n1 - 36524 * (n2' - c2) ∧
      d0 - 146097 * n1 - 36524 * (n2' - c2) < 1461 * n3 + 1461 := by omega
  have hb4 : (0 ≤ n4' ∧ n4' ≤ 3 ∧ c4 = 0 ∧
        365 * n4' ≤ d0 - 146097 * n1 - 36524 * (n2' - c2) - 1461 * n3 ∧
        d0 - 146097 * n1 - 36524 * (n2' - c2) - 1461 * n3 < 365 * n4' + 365) ∨
      (n4' = 4 ∧ c4 = 1 ∧ d0 - 146097 * n1 - 36524 * (n2' - c2) - 1461 * n3 = 1460) := by
    omega
  clear h1 h2 h2a h3 h4 h4a
  have hB2 : 0 ≤ n2' - c2 ∧ n2' - c2 ≤ 3 := by omega
  have hB3 : 0 ≤ n3 ∧ n3 ≤ 24 := by omega
  have hB4 : 0 ≤ n4' - c4 ∧ n4' - c4 ≤ 3 := by omega
  rw [daysToYearAbs_decomp n1 (n2' - c2) n3 (n4' - c4) hB2 hB3 hB4]
  refine ⟨by omega, by omega, ?_⟩
  have hiff := isLeapYear_decomp n1 (n2' - c2) n3 (n4' - c4) hB2 hB3 hB4
  split_ifs with hl
  · have hll := hiff.mp hl
    omega
  · have hnl : ¬(n4' - c4 = 3 ∧ (n3 ≠ 24 ∨ n2' - c2 = 3)) := fun hh => hl (hiff.mpr hh)
    omega

/-- `absDateDays` splits any day count into a year and a day-of-year in range:
the year start plus the day-of-year reconstitutes the input, and the day of the
year is at most 364 (365 in leap years). -/
theorem absDateDays_spec (d0 : Int) :
    daysToYearAbs (absDateDays d0).1 + (absDateDays d0).2 = d0 ∧
    0 ≤ (absDateDays d0).2 ∧
    (absDateDays d0).2 ≤ 364 + (if isLeapYear (absDateDays d0).1 then 1 else 0) := by
  unfold absDateDays
  exact absDateDays_spec_aux d0 _ _ _ _ _ _ rfl rfl rfl rfl rfl rfl

theorem absDateDays_inv_aux (D a b c e yday n1 n2' c2 n3 n4' c4 : Int)
    (hD : D = 146097 * a + 36524 * b + 1461 * c + 365 * e + yday)
    (hb : 0 ≤ b ∧ b ≤ 3) (hc : 0 ≤ c ∧ c ≤ 24) (he : 0 ≤ e ∧ e ≤ 3)
    (hy0 : 0 ≤ yday)
    (hyl : yday ≤ 364 ∨ (yday = 365 ∧ e = 3 ∧ (c ≠ 24 ∨ b = 3)))
    (h1 : D / 146097 = n1)
    (h2 : (D - 146097 * n1) / 36524 = n2')
    (h2a : n2' / 4 = c2)
    (h3 : (D - 146097 * n1 - 36524 * (n2' - c2)) / 1461 = n3)
    (h4 : (D - 146097 * n1 - 36524 * (n2' - c2) - 1461 * n3) / 365 = n4')
    (h4a : n4' / 4 = c4) :
    (1 + 400 * n1 + 100 * (n2' - c2) + 4 * n3 + (n4' - c4),
        D - 146097 * n1 - 36524 * (n2' - c2) - 1461 * n3 - 365 * (n4' - c4))
      = (1 + 400 * a + 100 * b + 4 * c + e, yday) := by
  have hn1 : n1 = a := by
    clear h2 h2a h3 h4 h4a
    omega
  subst hn1
  have hn2' : n2' = b ∨ (n2' = b + 1 ∧ b = 3 ∧ c = 24 ∧ e = 3 ∧ yday = 365) := by
    clear h2a h3 h4 h4a
    omega
  have hn2 : n2' - c2 = b := by
    clear h3 h4 h4a
    omega
  rw [hn2] at h3 h4 ⊢
  have hn3 : n3 = c := by
    clear h4 h4a
    omega
  subst hn3
  have hn4' : n4' = e ∨ (n4' = e + 1 ∧ e = 3 ∧ yday = 365) := by
    clear h4a
    omega
  have hn4 : n4' - c4 = e := by omega
  rw [hn4]
  have : D - 146097 * n1 - 36524 * b - 1461 * n3 - 365 * e = yday := by omega
  rw [this]

theorem year_cycle_decomp (y : Int) :
    ∃ a b c e : Int, y = 1 + 400 * a + 100 * b + 4 * c + e ∧
      (0 ≤ b ∧ b ≤ 3) ∧ (0 ≤ c ∧ c ≤ 24) ∧ (0 ≤ e ∧ e ≤ 3) := by
  refine ⟨(y - 1) / 400, ((y - 1) % 400) / 100, (((y - 1) % 400) % 100) / 4,
    (((y - 1) % 400) % 100) % 4, by omega, by omega, by omega, by omega⟩

theorem absDateDays_inv (y yday : Int) (h0 : 0 ≤ yday)
    (h1 : yday ≤ 364 + (if isLeapYear y then 1 else 0)) :
    absDateDays (daysToYearAbs y + yday) = (y, yday) := by
  obtain ⟨a, b, c, e, hy, hb, hc, he⟩ := year_cycle_decomp y
  subst hy
  have hleap := isLeapYear_decomp a b c e hb hc he
  have hyl : yday ≤ 364 ∨ (yday = 365 ∧ e = 3 ∧ (c ≠ 24 ∨ b = 3)) := by
    rcases Classical.em (isLeapYear (1 + 400 * a + 100 * b + 4 * c + e) = true) with hl | hl
    · rcases hleap.mp hl with ⟨h3, h4⟩
      rw [if_pos hl] at h1
      omega
    · rw [if_neg hl] at h1
      omega
  rw [daysToYearAbs_decomp a b c e hb hc he]
  unfold absDateDays
  exact absDateDays_inv_aux _ a b c e yday _ _ _ _ _ _ rfl hb hc he h0 hyl rfl rfl rfl rfl rfl
    rfl

theorem daysBefore_0 : daysBefore 0 = 0 := by decide

theorem daysBefore_1 : daysBefore 1 = 31 := by decide

theorem daysBefore_2 : daysBefore 2 = 59 := by decide

theorem daysBefore_3 : daysBefore 3 = 90 := by decide

theorem daysBefore_4 : daysBefore 4 = 120 := by decide

theorem daysBefore_5 : daysBefore 5 = 151 := by decide

theorem daysBefore_6 : daysBefore 6 = 181 := by decide

theorem daysBefore_7 : daysBefore 7 = 212 := by decide

theorem daysBefore_8 : daysBefore 8 = 243 := by decide

theorem daysBefore_9 : daysBefore 9 = 273 := by decide

theorem daysBefore_10 : daysBefore 10 = 304 := by decide

theorem daysBefore_11 : daysBefore 11 = 334 := by decide

theorem daysBefore_12 : daysBefore 12 = 365 := by decide

theorem mdAfterAdj_spec (day : Int) (h0 : 0 ≤ day) (h1 : day ≤ 364) :
    1 ≤ (mdAfterAdj day).1 ∧ (mdAfterAdj day).1 ≤ 12 ∧
    1 ≤ (mdAfterAdj day).2 ∧
    (mdAfterAdj day).2 ≤ daysBefore (mdAfterAdj day).1 - daysBefore ((mdAfterAdj day).1 - 1) ∧
    daysBefore ((mdAfterAdj day).1 - 1) + ((mdAfterAdj day).2 - 1) = day := by
  unfold mdAfterAdj
  have h12 : day / 31 = 0 ∨ day / 31 = 1 ∨ day / 31 = 2 ∨ day / 31 = 3 ∨
      day / 31 = 4 ∨ day / 31 = 5 ∨ day / 31 = 6 ∨ day / 31 = 7 ∨ day / 31 = 8 ∨
      day / 31 = 9 ∨ day / 31 = 10 ∨ day / 31 = 11 := by omega
  have hch : 31 * (day / 31) ≤ day ∧ day < 31 * (day / 31) + 31 := by omega
  rcases h12 with h | h | h | h | h | h | h | h | h | h | h | h <;>
    rw [h] at hch ⊢ <;>
    norm_num <;>
    split_ifs <;>
    norm_num [daysBefore_0, daysBefore_1, daysBefore_2, daysBefore_3, daysBefore_4,
      daysBefore_5, daysBefore_6, daysBefore_7, daysBefore_8, daysBefore_9, daysBefore_10,
      daysBefore_11, daysBefore_12] at * <;>
    omega

theorem mdAfterAdj_inv (m d : Int) (hm : 1 ≤ m ∧ m ≤ 12)
    (hd : 1 ≤ d ∧ d ≤ daysBefore m - daysBefore (m - 1)) :
    mdAfterAdj (daysBefore (m - 1) + (d - 1)) = (m, d) := by
  obtain ⟨hm1, hm2⟩ := hm
  interval_cases m
  · have harg : daysBefore (1 - 1) + (d - 1) = d - 1 := by
      norm_num [daysBefore_0] <;> omega
    norm_num [daysBefore_0, daysBefore_1] at hd
    rw [harg]
    unfold mdAfterAdj
    have hq : (d - 1) / 31 = 0 := by omega
    rw [hq]
    dsimp only
    split_ifs <;> norm_num [daysBefore_0, daysBefore_1] at * <;> omega
  · have harg : daysBefore (2 - 1) + (d - 1) = d + 30 := by
      norm_num [daysBefore_1] <;> omega
    norm_num [daysBefore_1, daysBefore_2] at hd
    rw [harg]
    unfold mdAfterAdj
    have hq : (d + 30) / 31 = 1 := by omega
    rw [hq]
    dsimp only
    split_ifs <;> norm_num [daysBefore_1, daysBefore_2] at * <;> omega
  · have harg : daysBefore (3 - 1) + (d - 1) = d + 58 := by
      norm_num [daysBefore_2] <;> omega
    norm_num [daysBefore_2, daysBefore_3] at hd
    rw [harg]
    unfold mdAfterAdj
    have hq : (d + 58) / 31 = 1 ∨ (d + 58) / 31 = 2 := by omega
    rcases hq with h | h <;> rw [h] <;> dsimp only <;> split_ifs <;> norm_num [daysBefore_1, daysBefore_2, daysBefore_3] at * <;> omega
  · have harg : daysBefore (4 - 1) + (d - 1) = d + 89 := by
      norm_num [daysBefore_3] <;> omega
    norm_num [daysBefore_3, daysBefore_4] at hd
    rw [harg]
    unfold mdAfterAdj
    have hq : (d + 89) / 31 = 2 ∨ (d + 89) / 31 = 3 := by omega
    rcases hq with h | h <;> rw [h] <;> dsimp only <;> split_ifs <;> norm_num [daysBefore_2, daysBefore_3, daysBefore_4] at * <;> omega
  · have harg : daysBefore (5 - 1) + (d - 1) = d + 119 := by
      norm_num [daysBefore_4] <;> omega
    norm_num [daysBefore_4, daysBefore_5] at hd
    rw [harg]
    unfold mdAfterAdj
    have hq : (d + 119) / 31 = 3 ∨ (d + 119) / 31 = 4 := by omega
    rcases hq with h | h <;> rw [h] <;> dsimp only <;> split_ifs <;> norm_num [daysBefore_3, daysBefore_4, daysBefore_5] at * <;> omega
  · have harg : daysBefore (6 - 1) + (d - 1) = d + 150 := by
      norm_num [daysBefore_5] <;> omega
    norm_num [daysBefore_5, daysBefore_6] at hd
    rw [harg]
    unfold mdAfterAdj
    have hq : (d + 150) / 31 = 4 ∨ (d + 150) / 31 = 5 := by omega
    rcases hq with h | h <;> rw [h] <;> dsimp only <;> split_ifs <;> norm_num [daysBefore_4, daysBefore_5, daysBefore_6] at * <;> omega
  · have harg : daysBefore (7 - 1) + (d - 1) = d + 180 := by
      norm_num [daysBefore_6] <;> omega
    norm_num [daysBefore_6, daysBefore_7] at hd
    rw [harg]
    unfold mdAfterAdj
    have hq : (d + 180) / 31 = 5 ∨ (d + 180) / 31 = 6 := by omega
    rcases hq with h | h <;> rw [h] <;> dsimp only <;> split_ifs <;> norm_num [daysBefore_5, daysBefore_6, daysBefore_7] at * <;> omega
  · have harg : daysBefore (8 - 1) + (d - 1) = d + 211 := by
      norm_num [daysBefore_7] <;> omega
    norm_num [daysBefore_7, daysBefore_8] at hd
    rw [harg]
    unfold mdAfterAdj
    have hq : (d + 211) / 31 = 6 ∨ (d + 211) / 31 = 7 := by omega
    rcases hq with h | h <;> rw [h] <;> dsimp only <;> split_ifs <;> norm_num [daysBefore_6, daysBefore_7, daysBefore_8] at * <;> omega
  · have harg : daysBefore (9 - 1) + (d - 1) = d + 242 := by
      norm_num [daysBefore_8] <;> omega
    norm_num [daysBefore_8, daysBefore_9] at hd
    rw [harg]
    unfold mdAfterAdj
    have hq : (d + 242) / 31 = 7 ∨ (d + 242) / 31 = 8 := by omega
    rcases hq with h | h <;> rw [h] <;> dsimp only <;> split_ifs <;> norm_num [daysBefore_7, daysBefore_8, daysBefore_9] at * <;> omega
  · have harg : daysBefore (10 - 1) + (d - 1) = d + 272 := by
      norm_num [daysBefore_9] <;> omega
    norm_num [daysBefore_9, daysBefore_10] at hd
    rw [harg]
    unfold mdAfterAdj
    have hq : (d + 272) / 31 = 8 ∨ (d + 272) / 31 = 9 := by omega
    rcases hq with h | h <;> rw [h] <;> dsimp only <;> split_ifs <;> norm_num [daysBefore_8, daysBefore_9, daysBefore_10] at * <;> omega
  · have harg : daysBefore (11 - 1) + (d - 1) = d + 303 := by
      norm_num [daysBefore_10] <;> omega
    norm_num [daysBefore_10, daysBefore_11] at hd
    rw [harg]
    unfold mdAfterAdj
    have hq : (d + 303) / 31 = 9 ∨ (d + 303) / 31 = 10 := by omega
    rcases hq with h | h <;> rw [h] <;> dsimp only <;> split_ifs <;> norm_num [daysBefore_9, daysBefore_10, daysBefore_11] at * <;> omega
  · have harg : daysBefore (12 - 1) + (d - 1) = d + 333 := by
      norm_num [daysBefore_11] <;> omega
    norm_num [daysBefore_11, daysBefore_12] at hd
    rw [harg]
    unfold mdAfterAdj
    have hq : (d + 333) / 31 = 10 ∨ (d + 333) / 31 = 11 := by omega
    rcases hq with h | h <;> rw [h] <;> dsimp only <;> split_ifs <;> norm_num [daysBefore_10, daysBefore_11, daysBefore_12] at * <;> omega

theorem monthLen_false (m : Int) : monthLen false m = daysBefore m - daysBefore (m - 1) := by
  unfold monthLen
  simp

theorem monthLen_2 (leap : Bool) : monthLen leap 2 = if leap then 29 else 28 := by
  cases leap <;> decide

theorem monthLen_ne_2 (leap : Bool) (m : Int) (h : m ≠ 2) :
    monthLen leap m = daysBefore m - daysBefore (m - 1) := by
  unfold monthLen
  rw [if_neg]
  simp [h]

theorem daysBefore_ge59 (m : Int) (h3 : 3 ≤ m) (h12 : m ≤ 12) : 59 ≤ daysBefore (m - 1) := by
  interval_cases m <;>
    norm_num [daysBefore_2, daysBefore_3, daysBefore_4, daysBefore_5, daysBefore_6, daysBefore_7,
      daysBefore_8, daysBefore_9, daysBefore_10, daysBefore_11]

theorem monthDayFromYday_spec (leap : Bool) (yday : Int) (h0 : 0 ≤ yday)
    (h1 : yday ≤ 364 + (if leap then 1 else 0)) :
    1 ≤ (monthDayFromYday leap yday).1 ∧ (monthDayFromYday leap yday).1 ≤ 12 ∧
    1 ≤ (monthDayFromYday leap yday).2 ∧
    (monthDayFromYday leap yday).2 ≤ monthLen leap (monthDayFromYday leap yday).1 ∧
    daysBefore ((monthDayFromYday leap yday).1 - 1)
        + (if leap ∧ 3 ≤ (monthDayFromYday leap yday).1 then 1 else 0)
        + ((monthDayFromYday leap yday).2 - 1) = yday := by
  unfold monthDayFromYday
  cases leap with
  | false =>
    rw [if_neg (by simp)]
    rw [if_neg (by simp)]
    have hs := mdAfterAdj_spec yday h0 (by simpa using h1)
    obtain ⟨hs1, hs2, hs3, hs4, hs5⟩ := hs
    refine ⟨hs1, hs2, hs3, ?_, ?_⟩
    · rw [monthLen_false]
      exact hs4
    · simpa using hs5
  | true =>
    by_cases h59 : yday = 59
    · rw [if_pos ⟨rfl, h59⟩]
      subst h59
      refine ⟨by norm_num, by norm_num, by norm_num, ?_, ?_⟩
      · rw [monthLen_2]
        norm_num
      · norm_num [daysBefore_1]
    · rw [if_neg (by simp [h59])]
      by_cases hgt : 59 < yday
      · rw [if_pos ⟨rfl, hgt⟩]
        have hs := mdAfterAdj_spec (yday - 1) (by omega) (by simp at h1; omega)
        obtain ⟨hs1, hs2, hs3, hs4, hs5⟩ := hs
        have hm3 : 3 ≤ (mdAfterAdj (yday - 1)).1 := by
          by_contra hlt
          push_neg at hlt
          have hm1 : (mdAfterAdj (yday - 1)).1 = 1 ∨ (mdAfterAdj (yday - 1)).1 = 2 := by omega
          rcases hm1 with h | h <;> rw [h] at hs4 hs5 <;>
            norm_num [daysBefore_0, daysBefore_1, daysBefore_2] at hs4 hs5 <;> omega
        refine ⟨hs1, hs2, hs3, ?_, ?_⟩
        · rw [monthLen_ne_2 true _ (by omega)]
          exact hs4
        · rw [if_pos ⟨rfl, hm3⟩]
          omega
      · rw [if_neg (by simp [hgt])]
        have hs := mdAfterAdj_spec yday h0 (by omega)
        obtain ⟨hs1, hs2, hs3, hs4, hs5⟩ := hs
        have hm2 : (mdAfterAdj yday).1 ≤ 2 := by
          by_contra hge
          push_neg at hge
          have := daysBefore_ge59 (mdAfterAdj yday).1 hge hs2
          omega
        refine ⟨hs1, hs2, hs3, ?_, ?_⟩
        · have hm1 : (mdAfterAdj yday).1 = 1 ∨ (mdAfterAdj yday).1 = 2 := by omega
          rcases hm1 with h | h <;> rw [h]
          · rw [monthLen_ne_2 true 1 (by omega)]
            rw [h] at hs4
            exact hs4
          · rw [monthLen_2]
            rw [h] at hs4
            norm_num [daysBefore_1, daysBefore_2] at hs4 ⊢
            omega
        · rw [if_neg (by simp; omega)]
          omega

theorem daysBefore_le2 (m : Int) (h1 : 1 ≤ m) (h2 : m ≤ 2) :
    daysBefore (m - 1) + (daysBefore m - daysBefore (m - 1)) ≤ 59 ∧ 0 ≤ daysBefore (m - 1) := by
  interval_cases m <;> norm_num [daysBefore_0, daysBefore_1, daysBefore_2]

theorem monthDayFromYday_inv (leap : Bool) (m d : Int) (hm : 1 ≤ m ∧ m ≤ 12)
    (hd : 1 ≤ d ∧ d ≤ monthLen leap m) :
    monthDayFromYday leap
        (daysBefore (m - 1) + (if leap ∧ 3 ≤ m then 1 else 0) + (d - 1)) = (m, d) := by
  unfold monthDayFromYday
  cases leap with
  | false =>
    rw [monthLen_false] at hd
    rw [if_neg (by simp : ¬((false : Bool) ∧ 3 ≤ m))]
    rw [if_neg (by simp)]
    rw [if_neg (by simp)]
    have harg : daysBefore (m - 1) + 0 + (d - 1) = daysBefore (m - 1) + (d - 1) := by omega
    rw [harg]
    exact mdAfterAdj_inv m d hm hd
  | true =>
    simp only [eq_self_iff_true, true_and, show ((true : Bool) : Prop) = True by simp, gt_iff_lt]
    by_cases hm3 : 3 ≤ m
    · rw [if_pos hm3]
      rw [monthLen_ne_2 true m (by omega)] at hd
      have hge := daysBefore_ge59 m hm3 hm.2
      rw [if_neg (by omega : ¬(daysBefore (m - 1) + 1 + (d - 1) = 59))]
      rw [if_pos (by omega : 59 < daysBefore (m - 1) + 1 + (d - 1))]
      have harg : daysBefore (m - 1) + 1 + (d - 1) - 1 = daysBefore (m - 1) + (d - 1) := by
        omega
      rw [harg]
      exact mdAfterAdj_inv m d hm hd
    · push_neg at hm3
      rw [if_neg (by omega : ¬(3 : Int) ≤ m)]
      have harg : daysBefore (m - 1) + 0 + (d - 1) = daysBefore (m - 1) + (d - 1) := by omega
      rw [harg]
      by_cases h229 : m = 2 ∧ d = 29
      · obtain ⟨hm2, hd29⟩ := h229
        subst hm2
        subst hd29
        rw [if_pos (by norm_num [daysBefore_1])]
      · have hm12 : m = 1 ∨ m = 2 := by omega
        have hdle : 1 ≤ d ∧ d ≤ daysBefore m - daysBefore (m - 1) := by
          rcases hm12 with h | h
          · subst h
            rw [monthLen_ne_2 true 1 (by omega)] at hd
            exact hd
          · subst h
            rw [monthLen_2] at hd
            simp only [if_pos rfl] at hd
            norm_num [daysBefore_1, daysBefore_2]
            have : d ≠ 29 := fun hh => h229 ⟨rfl, hh⟩
            omega
        rcases hm12 with h | h
        · subst h
          norm_num [daysBefore_0, daysBefore_1] at hdle ⊢
          rw [if_neg (by omega : ¬(d - 1 = 59))]
          rw [if_neg (by omega : ¬(59 : Int) < d - 1)]
          have := mdAfterAdj_inv 1 d (by omega) (by norm_num [daysBefore_0, daysBefore_1]; omega)
          norm_num [daysBefore_0] at this
          exact this
        · subst h
          norm_num [daysBefore_1, daysBefore_2] at hdle ⊢
          have hne29 : d ≠ 29 := fun hh => h229 ⟨rfl, hh⟩
          rw [if_neg (by omega : ¬(31 + (d - 1) = 59))]
          rw [if_neg (by omega : ¬(59 : Int) < 31 + (d - 1))]
          have := mdAfterAdj_inv 2 d (by omega) (by norm_num [daysBefore_1, daysBefore_2]; omega)
          norm_num [daysBefore_1] at this
          exact this

/-- Encoding a valid month/day as a day of the year stays within the year. -/
theorem yday_encode_range (leap : Bool) (m d : Int) (hm : 1 ≤ m ∧ m ≤ 12)
    (hd : 1 ≤ d ∧ d ≤ monthLen leap m) :
    0 ≤ daysBefore (m - 1) + (if leap ∧ 3 ≤ m then 1 else 0) + (d - 1) ∧
    daysBefore (m - 1) + (if leap ∧ 3 ≤ m then 1 else 0) + (d - 1)
      ≤ 364 + (if leap then 1 else 0) := by
  obtain ⟨hm1, hm2⟩ := hm
  cases leap <;>
    interval_cases m <;>
    norm_num [monthLen_2, monthLen_false, monthLen_ne_2, daysBefore_0, daysBefore_1,
      daysBefore_2, daysBefore_3, daysBefore_4, daysBefore_5, daysBefore_6, daysBefore_7,
      daysBefore_8, daysBefore_9, daysBefore_10, daysBefore_11, daysBefore_12] at hd ⊢ <;>
    omega

/-- Round trip: decoding a day count to a civil date and re-encoding it is the
identity. -/
theorem daysFromCivil_civilFromDays (z : Int) :
    daysFromCivil (civilFromDays z).1 (civilFromDays z).2.1 (civilFromDays z).2.2 = z := by
  obtain ⟨ha1, ha2, ha3⟩ := absDateDays_spec (z + epochDays)
  obtain ⟨hs1, hs2, hs3, hs4, hs5⟩ :=
    monthDayFromYday_spec (isLeapYear (absDateDays (z + epochDays)).1)
      (absDateDays (z + epochDays)).2 ha2 ha3
  unfold civilFromDays daysFromCivil
  dsimp only
  omega

/-- Round trip: encoding a valid civil date as a day count and decoding it is
the identity. -/
theorem civilFromDays_daysFromCivil (y m d : Int) (hm : 1 ≤ m ∧ m ≤ 12)
    (hd : 1 ≤ d ∧ d ≤ daysInMonth y m) :
    civilFromDays (daysFromCivil y m d) = (y, m, d) := by
  unfold daysInMonth at hd
  have hrange := yday_encode_range (isLeapYear y) m d hm hd
  have hinv := monthDayFromYday_inv (isLeapYear y) m d hm hd
  unfold civilFromDays
  have harg : daysFromCivil y m d + epochDays
      = daysToYearAbs y +
        (daysBefore (m - 1) + (if isLeapYear y ∧ 3 ≤ m then 1 else 0) + (d - 1)) := by
    unfold daysFromCivil
    ring
  rw [harg]
  rw [absDateDays_inv y _ hrange.1 hrange.2]
  dsimp only
  rw [hinv]

/-- One more year is 365 days, or 366 over a leap year. -/
theorem daysToYearAbs_succ (y : Int) :
    daysToYearAbs (y + 1) = daysToYearAbs y + 365 + (if isLeapYear y then 1 else 0) := by
  unfold daysToYearAbs isLeapYear
  simp only [Bool.and_eq_true, Bool.or_eq_true, beq_iff_eq, bne_iff_ne, decide_eq_true_eq]
  split_ifs with h
  · omega
  · omega

/-- The day after the last day of a month is the first day of the next month
(of January next year, after December). -/
theorem daysFromCivil_next_month (y m : Int) (hm : 1 ≤ m ∧ m ≤ 12) :
    daysFromCivil y m (daysInMonth y m) + 1
      = if m = 12 then daysFromCivil (y + 1) 1 1 else daysFromCivil y (m + 1) 1 := by
  obtain ⟨hm1, hm2⟩ := hm
  unfold daysFromCivil daysInMonth monthLen
  interval_cases m <;>
    norm_num [daysBefore_0, daysBefore_1, daysBefore_2, daysBefore_3, daysBefore_4,
      daysBefore_5, daysBefore_6, daysBefore_7, daysBefore_8, daysBefore_9, daysBefore_10,
      daysBefore_11, daysBefore_12] <;>
    (try split_ifs) <;>
    (try simp_all [daysToYearAbs_succ]) <;>
    omega

/-- Every month has between 28 and 31 days. -/
theorem daysInMonth_bounds (y m : Int) (hm : 1 ≤ m ∧ m ≤ 12) :
    28 ≤ daysInMonth y m ∧ daysInMonth y m ≤ 31 := by
  obtain ⟨hm1, hm2⟩ := hm
  unfold daysInMonth
  cases isLeapYear y <;>
    interval_cases m <;>
    norm_num [monthLen_2, monthLen_false, monthLen_ne_2, daysBefore_0, daysBefore_1,
      daysBefore_2, daysBefore_3, daysBefore_4, daysBefore_5, daysBefore_6, daysBefore_7,
      daysBefore_8, daysBefore_9, daysBefore_10, daysBefore_11, daysBefore_12]

/-- The day before the first day of a month is the last day of the previous
month (of December of the previous year, before January). -/
theorem civilFromDays_prev_day (y m : Int) (hm : 1 ≤ m ∧ m ≤ 12) :
    civilFromDays (daysFromCivil y m 1 - 1)
      = if m = 1 then (y - 1, 12, 31) else (y, m - 1, daysInMonth y (m - 1)) := by
  by_cases h1 : m = 1
  · subst h1
    rw [if_pos rfl]
    have h12 : daysFromCivil (y - 1) 12 (daysInMonth (y - 1) 12) + 1
        = daysFromCivil y 1 1 := by
      have := daysFromCivil_next_month (y - 1) 12 (by omega)
      rw [if_pos rfl] at this
      rw [this]
      ring_nf
    have hdim : daysInMonth (y - 1) 12 = 31 := by
      unfold daysInMonth
      rw [monthLen_ne_2 _ 12 (by omega)]
      norm_num [daysBefore_11, daysBefore_12]
    rw [show daysFromCivil y 1 1 - 1 = daysFromCivil (y - 1) 12 (daysInMonth (y - 1) 12) by
      omega]
    rw [civilFromDays_daysFromCivil (y - 1) 12 _ (by omega) (by omega)]
    rw [hdim]
  · rw [if_neg h1]
    have hprev := daysFromCivil_next_month y (m - 1) (by omega)
    rw [if_neg (by omega)] at hprev
    have harg : daysFromCivil y m 1 - 1 = daysFromCivil y (m - 1) (daysInMonth y (m - 1)) := by
      have : m - 1 + 1 = m := by ring
      rw [this] at hprev
      omega
    rw [harg]
    have hpos := daysInMonth_bounds y (m - 1) (by omega)
    exact civilFromDays_daysFromCivil y (m - 1) _ (by omega) (by omega)

/-! ### Field-level lemmas -/

/-- The local date of any time is a valid civil date. -/
theorem civilFromDays_valid (z : Int) :
    1 ≤ (civilFromDays z).2.1 ∧ (civilFromDays z).2.1 ≤ 12 ∧
    1 ≤ (civilFromDays z).2.2 ∧
    (civilFromDays z).2.2 ≤ daysInMonth (civilFromDays z).1 (civilFromDays z).2.1 := by
  obtain ⟨ha1, ha2, ha3⟩ := absDateDays_spec (z + epochDays)
  obtain ⟨hs1, hs2, hs3, hs4, hs5⟩ :=
    monthDayFromYday_spec (isLeapYear (absDateDays (z + epochDays)).1)
      (absDateDays (z + epochDays)).2 ha2 ha3
  unfold civilFromDays daysInMonth
  dsimp only
  exact ⟨hs1, hs2, hs3, hs4⟩

/-- `goDate` with a month already in `[1,12]`: location, day count and clock
fields are the written ones (for a clock value inside one day). -/
theorem goDate_spec (y m d hh mi ss ns : Int) (loc : Loc) (hm : 1 ≤ m ∧ m ≤ 12)
    (hT : 0 ≤ hh * nsPerHour + mi * nsPerMin + ss * nsPerSec + ns ∧
      hh * nsPerHour + mi * nsPerMin + ss * nsPerSec + ns < nsPerDay) :
    (goDate y m d hh mi ss ns loc).wallDays = daysFromCivil y m d ∧
    (goDate y m d hh mi ss ns loc).tod = hh * nsPerHour + mi * nsPerMin + ss * nsPerSec + ns ∧
    (goDate y m d hh mi ss ns loc).loc = loc := by
  have hy : y + (m - 1) / 12 = y := by omega
  have hm' : (m - 1) % 12 + 1 = m := by omega
  unfold goDate GoTime.wallDays GoTime.tod GoTime.wall
  rw [hy, hm']
  dsimp only
  simp only [nsPerDay, nsPerHour, nsPerMin, nsPerSec] at *
  constructor
  · omega
  constructor
  · omega
  · trivial

/-! ### Structural lemmas about the boundary operations -/

/-- The clock fields of a time with `tod = 0` are all zero, and in general the
clock fields recompose to `tod`. -/
theorem clock_fields (t : GoTime) :
    t.tod = t.hourOf * nsPerHour + t.minuteOf * nsPerMin + t.secondOf * nsPerSec + t.nsecOf ∧
    0 ≤ t.tod ∧ t.tod < nsPerDay := by
  unfold GoTime.hourOf GoTime.minuteOf GoTime.secondOf GoTime.nsecOf GoTime.tod GoTime.wall
  simp only [nsPerDay, nsPerHour, nsPerMin, nsPerSec]
  omega

/-- `BeginningOfDay` clears the time of day, keeps the civil day and the
location. -/
theorem beginningOfDay_spec (t : Timex) :
    t.BeginningOfDay.wallDays = t.time.wallDays ∧ t.BeginningOfDay.tod = 0 ∧
      t.BeginningOfDay.loc = t.time.loc := by
  have hv := civilFromDays_valid t.time.wallDays
  have hs := goDate_spec t.time.yearOf t.time.monthOf t.time.dayOf 0 0 0 0 t.time.loc
    ⟨hv.1, hv.2.1⟩ (by simp [nsPerDay, nsPerHour, nsPerMin, nsPerSec])
  unfold Timex.BeginningOfDay
  refine ⟨?_, by simpa using hs.2.1, hs.2.2⟩
  rw [hs.1]
  unfold GoTime.yearOf GoTime.monthOf GoTime.dayOf GoTime.dateOf
  exact daysFromCivil_civilFromDays t.time.wallDays

/-- `AddDate(0, 0, k)` on a midnight time shifts the civil day count by `k`
and keeps midnight and the location. -/
theorem addDate_days_spec (u : GoTime) (k : Int) (h0 : u.tod = 0) :
    (u.addDate 0 0 k).wallDays = u.wallDays + k ∧ (u.addDate 0 0 k).tod = 0 ∧
      (u.addDate 0 0 k).loc = u.loc := by
  have hv := civilFromDays_valid u.wallDays
  have hcl := clock_fields u
  have hh : u.hourOf = 0 ∧ u.minuteOf = 0 ∧ u.secondOf = 0 ∧ u.nsecOf = 0 := by
    unfold GoTime.hourOf GoTime.minuteOf GoTime.secondOf GoTime.nsecOf at *
    unfold GoTime.tod GoTime.wall at *
    simp only [nsPerDay, nsPerHour, nsPerMin, nsPerSec] at *
    omega
  unfold GoTime.addDate
  rw [hh.1, hh.2.1, hh.2.2.1, hh.2.2.2]
  simp only [add_zero]
  have hs := goDate_spec u.yearOf u.monthOf (u.dayOf + k) 0 0 0 0 u.loc ⟨hv.1, hv.2.1⟩
    (by simp [nsPerDay, nsPerHour, nsPerMin, nsPerSec])
  refine ⟨?_, by simpa using hs.2.1, hs.2.2⟩
  rw [hs.1]
  have hlin : daysFromCivil u.yearOf u.monthOf (u.dayOf + k)
      = daysFromCivil u.yearOf u.monthOf u.dayOf + k := by
    unfold daysFromCivil
    ring
  rw [hlin]
  unfold GoTime.yearOf GoTime.monthOf GoTime.dayOf GoTime.dateOf
  rw [daysFromCivil_civilFromDays u.wallDays]

/-- Recover day count and time of day from a decomposed wall clock. -/
theorem wall_split (v : GoTime) (w T : Int) (hW : v.wall = w * nsPerDay + T)
    (hT : 0 ≤ T ∧ T < nsPerDay) : v.wallDays = w ∧ v.tod = T := by
  unfold GoTime.wallDays GoTime.tod
  rw [hW]
  simp only [nsPerDay, nsPerHour, nsPerMin, nsPerSec] at *
  omega

/-- The wall clock splits into day count and time of day. -/
theorem wall_decomp (v : GoTime) : v.wall = v.wallDays * nsPerDay + v.tod ∧
    0 ≤ v.tod ∧ v.tod < nsPerDay := by
  unfold GoTime.wallDays GoTime.tod
  simp only [nsPerDay, nsPerHour, nsPerMin, nsPerSec]
  omega

/-- `nanos` in terms of the wall clock. -/
theorem nanos_eq_wall (v : GoTime) : v.nanos = v.wall - v.loc.offSec * nsPerSec := by
  unfold GoTime.wall
  ring

/-- `AddDate` on a midnight time, in terms of `time.Date` on its fields. -/
theorem addDate_tod0 (u : GoTime) (ys ms ds : Int) (h0 : u.tod = 0) :
    u.addDate ys ms ds = goDate (u.yearOf + ys) (u.monthOf + ms) (u.dayOf + ds) 0 0 0 0 u.loc := by
  have hcl := clock_fields u
  have hh : u.hourOf = 0 ∧ u.minuteOf = 0 ∧ u.secondOf = 0 ∧ u.nsecOf = 0 := by
    unfold GoTime.hourOf GoTime.minuteOf GoTime.secondOf GoTime.nsecOf at *
    unfold GoTime.tod GoTime.wall at *
    simp only [nsPerDay, nsPerHour, nsPerMin, nsPerSec] at *
    omega
  unfold GoTime.addDate
  rw [hh.1, hh.2.1, hh.2.2.1, hh.2.2.2]

/-- The civil fields of a "first of month, midnight" time. -/
theorem firstOfMonth_fields (u : GoTime) (y m : Int) (hm : 1 ≤ m ∧ m ≤ 12)
    (hu : u.wallDays = daysFromCivil y m 1) :
    u.yearOf = y ∧ u.monthOf = m ∧ u.dayOf = 1 := by
  have hdim := daysInMonth_bounds y m hm
  have := civilFromDays_daysFromCivil y m 1 hm ⟨le_refl 1, by omega⟩
  unfold GoTime.yearOf GoTime.monthOf GoTime.dayOf GoTime.dateOf
  rw [hu, this]
  exact ⟨rfl, rfl, rfl⟩

/-- `BeginningOfWeek`: midnight, same location, and the day count moves back by
the weekday distance to the configured week start. -/
theorem beginningOfWeek_spec (t : Timex) (hws : 0 ≤ t.rule.weekStartDay ∧
    t.rule.weekStartDay < 7) :
    t.BeginningOfWeek.wallDays = t.time.wallDays -
      ((t.time.wallDays + 4) % 7 - t.rule.weekStartDay + 7) % 7 ∧
    t.BeginningOfWeek.tod = 0 ∧ t.BeginningOfWeek.loc = t.time.loc := by
  obtain ⟨hbd1, hbd2, hbd3⟩ := beginningOfDay_spec t
  unfold Timex.BeginningOfWeek
  dsimp only
  have hwd : t.BeginningOfDay.weekday = (t.time.wallDays + 4) % 7 := by
    unfold GoTime.weekday
    rw [hbd1]
  obtain ⟨ha1, ha2, ha3⟩ := addDate_days_spec t.BeginningOfDay
    (-(if t.rule.weekStartDay ≠ 0 then
        if t.BeginningOfDay.weekday < t.rule.weekStartDay then
          t.BeginningOfDay.weekday + 7 - t.rule.weekStartDay
        else t.BeginningOfDay.weekday - t.rule.weekStartDay
      else t.BeginningOfDay.weekday)) hbd2
  refine ⟨?_, ha2, by rw [ha3, hbd3]⟩
  rw [ha1, hbd1, hwd]
  split_ifs <;> omega

/-- C4: For every timestamp and configured week start day in range,
`BeginningOfWeek` lands at midnight of a day whose weekday is exactly
`weekStartDay`, and `EndOfWeek` is `BeginningOfWeek` plus seven days minus one
nanosecond; concretely, with `weekStartDay = Monday` and the wrapped time
2024-03-20 14:30:00 UTC (a Wednesday), `BeginningOfWeek` is 2024-03-18
00:00:00 UTC and `EndOfWeek` is 2024-03-24 23:59:59.999999999 UTC. -/
theorem claim_C4_week_boundaries (t : Timex) (hws : 0 ≤ t.rule.weekStartDay ∧
    t.rule.weekStartDay < 7) :
    t.BeginningOfWeek.weekday = t.rule.weekStartDay ∧
    t.BeginningOfWeek.tod = 0 ∧
    t.EndOfWeek = t.BeginningOfWeek.add (7 * nsPerDay - 1) ∧
    (Timex.mk (goDate 2024 3 20 14 30 0 0 utcLoc) (Rule.mk 1 none [])).BeginningOfWeek
      = goDate 2024 3 18 0 0 0 0 utcLoc ∧
    (Timex.mk (goDate 2024 3 20 14 30 0 0 utcLoc) (Rule.mk 1 none [])).EndOfWeek
      = goDate 2024 3 24 23 59 59 (nsPerSec - 1) utcLoc := by
  obtain ⟨hw1, hw2, hw3⟩ := beginningOfWeek_spec t hws
  refine ⟨?_, hw2, ?_, by decide, by decide⟩
  · unfold GoTime.weekday
    rw [hw1]
    omega
  · unfold Timex.EndOfWeek
    obtain ⟨ha1, ha2, ha3⟩ := addDate_days_spec t.BeginningOfWeek 7 hw2
    have hnanos : (t.BeginningOfWeek.addDate 0 0 7).nanos
        = t.BeginningOfWeek.nanos + 7 * nsPerDay := by
      rw [nanos_eq_wall (t.BeginningOfWeek.addDate 0 0 7), nanos_eq_wall t.BeginningOfWeek]
      rw [(wall_decomp (t.BeginningOfWeek.addDate 0 0 7)).1, (wall_decomp t.BeginningOfWeek).1]
      rw [ha1, ha2, hw2, ha3]
      ring
    unfold GoTime.add
    rw [hnanos]
    have hloc : (t.BeginningOfWeek.addDate 0 0 7).loc = t.BeginningOfWeek.loc := ha3
    rw [hloc]
    congr 1
    ring

/-- Witness for C4 at a concrete rule and timestamp (Monday week start,
Wednesday 2024-03-20 14:30:00 UTC). -/
theorem claim_C4_week_boundaries_witness :
    (0 ≤ (1 : Int) ∧ (1 : Int) < 7) ∧
    ((Timex.mk (goDate 2024 3 20 14 30 0 0 utcLoc)
        (Rule.mk 1 none [])).BeginningOfWeek.weekday = 1 ∧
      (Timex.mk (goDate 2024 3 20 14 30 0 0 utcLoc)
        (Rule.mk 1 none [])).BeginningOfWeek.tod = 0) := by
  have h := claim_C4_week_boundaries
    (Timex.mk (goDate 2024 3 20 14 30 0 0 utcLoc) (Rule.mk 1 none [])) (by decide)
  exact ⟨by decide, h.1, h.2.1⟩

/-- Two times with equal day count, time of day and location are equal. -/
theorem goTime_eq_of_fields (u v : GoTime) (h1 : u.wallDays = v.wallDays)
    (h2 : u.tod = v.tod) (h3 : u.loc = v.loc) : u = v := by
  have hn : u.nanos = v.nanos := by
    rw [nanos_eq_wall u, nanos_eq_wall v, (wall_decomp u).1, (wall_decomp v).1, h1, h2, h3]
  cases u
  cases v
  simp_all

/-- `goDate` with an explicitly normalised month. -/
theorem goDate_spec2 (y m d hh mi ss ns : Int) (loc : Loc) (y2 m2 : Int)
    (hy : y + (m - 1) / 12 = y2) (hm2 : (m - 1) % 12 + 1 = m2)
    (hT : 0 ≤ hh * nsPerHour + mi * nsPerMin + ss * nsPerSec + ns ∧
      hh * nsPerHour + mi * nsPerMin + ss * nsPerSec + ns < nsPerDay) :
    (goDate y m d hh mi ss ns loc).wallDays = daysFromCivil y2 m2 d ∧
    (goDate y m d hh mi ss ns loc).tod = hh * nsPerHour + mi * nsPerMin + ss * nsPerSec + ns ∧
    (goDate y m d hh mi ss ns loc).loc = loc := by
  unfold goDate GoTime.wallDays GoTime.tod GoTime.wall
  rw [hy, hm2]
  dsimp only
  simp only [nsPerDay, nsPerHour, nsPerMin, nsPerSec] at *
  refine ⟨by omega, by omega, by trivial⟩

/-- `BeginningOfMonth`: first of the current month, midnight, same location. -/
theorem beginningOfMonth_spec (t : Timex) :
    t.BeginningOfMonth.wallDays = daysFromCivil t.time.yearOf t.time.monthOf 1 ∧
    t.BeginningOfMonth.tod = 0 ∧ t.BeginningOfMonth.loc = t.time.loc := by
  have hv := civilFromDays_valid t.time.wallDays
  have hs := goDate_spec t.time.yearOf t.time.monthOf 1 0 0 0 0 t.time.loc ⟨hv.1, hv.2.1⟩
    (by simp [nsPerDay, nsPerHour, nsPerMin, nsPerSec])
  unfold Timex.BeginningOfMonth
  exact ⟨hs.1, by simpa using hs.2.1, hs.2.2⟩

/-- `BeginningOfYear`: January 1 of the current year, midnight, same
location. -/
theorem beginningOfYear_spec (t : Timex) :
    t.BeginningOfYear.wallDays = daysFromCivil t.time.yearOf 1 1 ∧
    t.BeginningOfYear.tod = 0 ∧ t.BeginningOfYear.loc = t.time.loc := by
  have hs := goDate_spec t.time.yearOf 1 1 0 0 0 0 t.time.loc ⟨by omega, by omega⟩
    (by simp [nsPerDay, nsPerHour, nsPerMin, nsPerSec])
  unfold Timex.BeginningOfYear
  exact ⟨hs.1, by simpa using hs.2.1, hs.2.2⟩

/-- `BeginningOfQuarter`: first of the quarter month, midnight, same
location. -/
theorem beginningOfQuarter_spec (t : Timex) :
    t.BeginningOfQuarter.wallDays
      = daysFromCivil t.time.yearOf (t.time.monthOf - (t.time.monthOf - 1) % 3) 1 ∧
    t.BeginningOfQuarter.tod = 0 ∧ t.BeginningOfQuarter.loc = t.time.loc := by
  have hv := civilFromDays_valid t.time.wallDays
  obtain ⟨hb1, hb2, hb3⟩ := beginningOfMonth_spec t
  have hf := firstOfMonth_fields t.BeginningOfMonth t.time.yearOf t.time.monthOf
    ⟨hv.1, hv.2.1⟩ hb1
  have hm : 1 ≤ t.time.monthOf ∧ t.time.monthOf ≤ 12 := by
    unfold GoTime.monthOf GoTime.dateOf
    exact ⟨hv.1, hv.2.1⟩
  unfold Timex.BeginningOfQuarter
  dsimp only
  rw [hf.2.1]
  rw [addDate_tod0 t.BeginningOfMonth 0 (-((t.time.monthOf - 1) % 3)) 0 hb2]
  rw [hf.1, hf.2.1, hf.2.2]
  simp only [add_zero]
  have hs := goDate_spec t.time.yearOf (t.time.monthOf + -((t.time.monthOf - 1) % 3)) 1 0 0 0 0
    t.BeginningOfMonth.loc (by omega) (by simp [nsPerDay, nsPerHour, nsPerMin, nsPerSec])
  refine ⟨?_, by simpa using hs.2.1, by rw [← hb3] <;> exact hs.2.2⟩
  rw [hs.1]
  try congr 1
  try omega

/-- `BeginningOfHalf`: first of the half-year month, midnight, same
location. -/
theorem beginningOfHalf_spec (t : Timex) :
    t.BeginningOfHalf.wallDays
      = daysFromCivil t.time.yearOf (t.time.monthOf - (t.time.monthOf - 1) % 6) 1 ∧
    t.BeginningOfHalf.tod = 0 ∧ t.BeginningOfHalf.loc = t.time.loc := by
  have hv := civilFromDays_valid t.time.wallDays
  obtain ⟨hb1, hb2, hb3⟩ := beginningOfMonth_spec t
  have hf := firstOfMonth_fields t.BeginningOfMonth t.time.yearOf t.time.monthOf
    ⟨hv.1, hv.2.1⟩ hb1
  have hm : 1 ≤ t.time.monthOf ∧ t.time.monthOf ≤ 12 := by
    unfold GoTime.monthOf GoTime.dateOf
    exact ⟨hv.1, hv.2.1⟩
  unfold Timex.BeginningOfHalf
  dsimp only
  rw [hf.2.1]
  rw [addDate_tod0 t.BeginningOfMonth 0 (-((t.time.monthOf - 1) % 6)) 0 hb2]
  rw [hf.1, hf.2.1, hf.2.2]
  simp only [add_zero]
  have hs := goDate_spec t.time.yearOf (t.time.monthOf + -((t.time.monthOf - 1) % 6)) 1 0 0 0 0
    t.BeginningOfMonth.loc (by omega) (by simp [nsPerDay, nsPerHour, nsPerMin, nsPerSec])
  refine ⟨?_, by simpa using hs.2.1, by rw [← hb3] <;> exact hs.2.2⟩
  rw [hs.1]
  try congr 1
  try omega

/-- Fields of "one nanosecond before the first of a month": the last day of the
previous month, at the last nanosecond of the day. -/
theorem add_neg_one_fields (u : GoTime) (y mm : Int) (hmm : 1 ≤ mm ∧ mm ≤ 12)
    (hW : u.wallDays = daysFromCivil y mm 1) (h0 : u.tod = 0) :
    (u.add (-1)).dateOf
        = (if mm = 1 then ((y - 1 : Int), ((12 : Int), (31 : Int)))
          else (y, (mm - 1, daysInMonth y (mm - 1)))) ∧
      (u.add (-1)).tod = nsPerDay - 1 ∧ (u.add (-1)).loc = u.loc := by
  have hw := wall_decomp u
  have hwall : (u.add (-1)).wall = (daysFromCivil y mm 1 - 1) * nsPerDay + (nsPerDay - 1) := by
    unfold GoTime.add GoTime.wall at *
    dsimp only at *
    rw [hW, h0] at hw
    simp only [nsPerDay, nsPerHour, nsPerMin, nsPerSec] at *
    omega
  obtain ⟨hwd, htd⟩ := wall_split (u.add (-1)) (daysFromCivil y mm 1 - 1) (nsPerDay - 1) hwall
    (by simp [nsPerDay, nsPerHour, nsPerMin, nsPerSec])
  refine ⟨?_, htd, rfl⟩
  unfold GoTime.dateOf
  rw [hwd]
  exact civilFromDays_prev_day y mm hmm

/-- Minute boundary idempotence over the end-of-minute map. -/
theorem boMin_of_end (t : Timex) (r : Rule) :
    (Timex.mk t.EndOfMinute r).BeginningOfMinute = t.BeginningOfMinute := by
  simp only [Timex.BeginningOfMinute, Timex.EndOfMinute, GoTime.truncateMinute, GoTime.add]
  simp only [GoTime.mk.injEq]
  refine ⟨?_, by trivial⟩
  simp only [nsPerMin, nsPerSec]
  omega

/-- The hour of a time, from its time of day. -/
theorem hourOf_bounds (t : GoTime) : 0 ≤ t.hourOf ∧ t.hourOf ≤ 23 := by
  have := wall_decomp t
  unfold GoTime.hourOf
  simp only [nsPerDay, nsPerHour, nsPerMin, nsPerSec] at *
  omega

/-- The date fields of any Timex time are its `civilFromDays` components. -/
theorem dateOf_fields (u : GoTime) :
    u.yearOf = (civilFromDays u.wallDays).1 ∧ u.monthOf = (civilFromDays u.wallDays).2.1 ∧
      u.dayOf = (civilFromDays u.wallDays).2.2 := by
  unfold GoTime.yearOf GoTime.monthOf GoTime.dayOf GoTime.dateOf
  exact ⟨rfl, rfl, rfl⟩

/-- `BeginningOfHour`: same civil day, time of day = whole hours, same
location. -/
theorem beginningOfHour_spec (t : Timex) :
    t.BeginningOfHour.wallDays = t.time.wallDays ∧
    t.BeginningOfHour.tod = t.time.hourOf * nsPerHour ∧
    t.BeginningOfHour.loc = t.time.loc := by
  have hv := civilFromDays_valid t.time.wallDays
  have hhr := hourOf_bounds t.time
  have hs := goDate_spec t.time.yearOf t.time.monthOf t.time.dayOf t.time.hourOf 0 0 0
    t.time.loc ⟨hv.1, hv.2.1⟩
    (by simp only [nsPerDay, nsPerHour, nsPerMin, nsPerSec] at *; omega)
  unfold Timex.BeginningOfHour
  refine ⟨?_, ?_, hs.2.2⟩
  · rw [hs.1]
    unfold GoTime.yearOf GoTime.monthOf GoTime.dayOf GoTime.dateOf
    exact daysFromCivil_civilFromDays t.time.wallDays
  · rw [hs.2.1]
    ring

/-- Hour boundary idempotence over the end-of-hour map. -/
theorem boHour_of_end (t : Timex) (r : Rule) :
    (Timex.mk t.EndOfHour r).BeginningOfHour = t.BeginningOfHour := by
  obtain ⟨hb1, hb2, hb3⟩ := beginningOfHour_spec t
  have hhr := hourOf_bounds t.time
  have hwall : t.EndOfHour.wall = t.time.wallDays * nsPerDay +
      (t.time.hourOf * nsPerHour + (nsPerHour - 1)) := by
    unfold Timex.EndOfHour GoTime.add GoTime.wall at *
    dsimp only at *
    unfold GoTime.wallDays GoTime.tod GoTime.wall at *
    simp only [nsPerDay, nsPerHour, nsPerMin, nsPerSec] at *
    omega
  obtain ⟨hwd, htd⟩ := wall_split t.EndOfHour _ _ hwall
    (by simp only [nsPerDay, nsPerHour, nsPerMin, nsPerSec] at *; omega)
  have hloc : t.EndOfHour.loc = t.time.loc := by
    unfold Timex.EndOfHour GoTime.add at *
    dsimp only
    exact hb3
  have hdf := dateOf_fields t.EndOfHour
  have hdf2 := dateOf_fields t.time
  have hhour : t.EndOfHour.hourOf = t.time.hourOf := by
    show t.EndOfHour.tod / nsPerHour = t.time.hourOf
    rw [htd]
    simp only [nsPerDay, nsPerHour, nsPerMin, nsPerSec] at hhr ⊢
    omega
  show goDate t.EndOfHour.yearOf t.EndOfHour.monthOf t.EndOfHour.dayOf t.EndOfHour.hourOf
      0 0 0 t.EndOfHour.loc = _
  rw [hdf.1, hdf.2.1, hdf.2.2, hwd, hhour, hloc]
  rw [← hdf2.1, ← hdf2.2.1, ← hdf2.2.2]
  rfl

/-- Day boundary idempotence over the end-of-day map. -/
theorem boDay_of_end (t : Timex) (r : Rule) :
    (Timex.mk t.EndOfDay r).BeginningOfDay = t.BeginningOfDay := by
  have hv := civilFromDays_valid t.time.wallDays
  have hs := goDate_spec t.time.yearOf t.time.monthOf t.time.dayOf 23 59 59 (nsPerSec - 1)
    t.time.loc ⟨hv.1, hv.2.1⟩
    (by simp only [nsPerDay, nsPerHour, nsPerMin, nsPerSec]; omega)
  have hwd : t.EndOfDay.wallDays = t.time.wallDays := by
    show (goDate _ _ _ _ _ _ _ _).wallDays = _
    rw [hs.1]
    unfold GoTime.yearOf GoTime.monthOf GoTime.dayOf GoTime.dateOf
    exact daysFromCivil_civilFromDays t.time.wallDays
  have hloc : t.EndOfDay.loc = t.time.loc := hs.2.2
  have hdf := dateOf_fields t.EndOfDay
  have hdf2 := dateOf_fields t.time
  show goDate t.EndOfDay.yearOf t.EndOfDay.monthOf t.EndOfDay.dayOf 0 0 0 0 t.EndOfDay.loc = _
  rw [hdf.1, hdf.2.1, hdf.2.2, hwd, hloc]
  rw [← hdf2.1, ← hdf2.2.1, ← hdf2.2.2]
  rfl

/-- Week boundary idempotence over the end-of-week map. -/
theorem boWeek_of_end (t : Timex) (hws : 0 ≤ t.rule.weekStartDay ∧ t.rule.weekStartDay < 7) :
    (Timex.mk t.EndOfWeek t.rule).BeginningOfWeek = t.BeginningOfWeek := by
  obtain ⟨hw1, hw2, hw3⟩ := beginningOfWeek_spec t hws
  obtain ⟨ha1, ha2, ha3⟩ := addDate_days_spec t.BeginningOfWeek 7 hw2
  have hwall : t.EndOfWeek.wall
      = (t.BeginningOfWeek.wallDays + 6) * nsPerDay + (nsPerDay - 1) := by
    unfold Timex.EndOfWeek GoTime.add
    unfold GoTime.wall GoTime.wallDays at *
    dsimp only at *
    have hd := wall_decomp (t.BeginningOfWeek.addDate 0 0 7)
    unfold GoTime.wall GoTime.wallDays at hd
    simp only [nsPerDay, nsPerHour, nsPerMin, nsPerSec] at *
    omega
  obtain ⟨hwd, htd⟩ := wall_split t.EndOfWeek _ _ hwall
    (by simp only [nsPerDay, nsPerHour, nsPerMin, nsPerSec]; omega)
  have hloc : t.EndOfWeek.loc = t.time.loc := by
    unfold Timex.EndOfWeek GoTime.add
    dsimp only
    rw [ha3, hw3]
  obtain ⟨hw1', hw2', hw3'⟩ := beginningOfWeek_spec (Timex.mk t.EndOfWeek t.rule) hws
  refine goTime_eq_of_fields _ _ ?_ (by rw [hw2', hw2]) (by rw [hw3', hw3]; exact hloc)
  rw [hw1', hw1]
  dsimp only
  rw [hwd, hw1]
  omega

/-- Month boundary idempotence over the end-of-month map. -/
theorem boMonth_of_end (t : Timex) (r : Rule) :
    (Timex.mk t.EndOfMonth r).BeginningOfMonth = t.BeginningOfMonth := by
  have hv := civilFromDays_valid t.time.wallDays
  have hm : 1 ≤ t.time.monthOf ∧ t.time.monthOf ≤ 12 := by
    unfold GoTime.monthOf GoTime.dateOf
    exact ⟨hv.1, hv.2.1⟩
  obtain ⟨hb1, hb2, hb3⟩ := beginningOfMonth_spec t
  have hf := firstOfMonth_fields t.BeginningOfMonth t.time.yearOf t.time.monthOf hm hb1
  have hstep : t.BeginningOfMonth.addDate 0 1 0
      = goDate t.time.yearOf (t.time.monthOf + 1) 1 0 0 0 0 t.time.loc := by
    rw [addDate_tod0 t.BeginningOfMonth 0 1 0 hb2, hf.1, hf.2.1, hf.2.2, hb3]
    norm_num
  have hy2 : t.time.yearOf + (t.time.monthOf + 1 - 1) / 12
      = (if t.time.monthOf = 12 then t.time.yearOf + 1 else t.time.yearOf) := by
    split_ifs <;> omega
  have hm2 : (t.time.monthOf + 1 - 1) % 12 + 1
      = (if t.time.monthOf = 12 then 1 else t.time.monthOf + 1) := by
    split_ifs <;> omega
  have hs := goDate_spec2 t.time.yearOf (t.time.monthOf + 1) 1 0 0 0 0 t.time.loc _ _ hy2 hm2
    (by simp [nsPerDay, nsPerHour, nsPerMin, nsPerSec])
  have hnf := add_neg_one_fields (goDate t.time.yearOf (t.time.monthOf + 1) 1 0 0 0 0 t.time.loc)
    _ _ (by split_ifs <;> omega) hs.1 (by simpa using hs.2.1)
  have hEoM : t.EndOfMonth = (goDate t.time.yearOf (t.time.monthOf + 1) 1 0 0 0 0
      t.time.loc).add (-1) := by
    unfold Timex.EndOfMonth
    rw [hstep]
  obtain ⟨hb1', hb2', hb3'⟩ := beginningOfMonth_spec (Timex.mk t.EndOfMonth r)
  have hye : t.EndOfMonth.yearOf = t.time.yearOf ∧ t.EndOfMonth.monthOf = t.time.monthOf := by
    constructor
    · show t.EndOfMonth.dateOf.1 = _
      rw [hEoM, hnf.1]
      split_ifs with h12 <;> dsimp only <;> omega
    · show t.EndOfMonth.dateOf.2.1 = _
      rw [hEoM, hnf.1]
      split_ifs with h12 <;> dsimp only <;> omega
  refine goTime_eq_of_fields _ _ ?_ (by rw [hb2', hb2]) ?_
  · rw [hb1', hb1]
    dsimp only
    rw [hye.1, hye.2]
  · rw [hb3', hb3]
    dsimp only
    rw [hEoM]
    exact hs.2.2

/-- Fields of the last nanosecond of a block of `δ` months starting at the
first of month `m0`: the year is unchanged, the month is the block's last. -/
theorem block_end_fields (y m0 δ : Int) (X : GoTime)
    (hX1 : X.wallDays = daysFromCivil y m0 1) (hX2 : X.tod = 0)
    (hm0 : 1 ≤ m0 ∧ m0 + δ ≤ 13 ∧ 1 ≤ δ ∧ m0 ≤ 12) :
    ((X.addDate 0 δ 0).add (-1)).yearOf = y ∧
    ((X.addDate 0 δ 0).add (-1)).monthOf = m0 + δ - 1 ∧
    ((X.addDate 0 δ 0).add (-1)).tod = nsPerDay - 1 ∧
    ((X.addDate 0 δ 0).add (-1)).loc = X.loc := by
  have hf := firstOfMonth_fields X y m0 ⟨hm0.1, hm0.2.2.2⟩ hX1
  have hstep : X.addDate 0 δ 0 = goDate y (m0 + δ) 1 0 0 0 0 X.loc := by
    rw [addDate_tod0 X 0 δ 0 hX2, hf.1, hf.2.1, hf.2.2]
    norm_num
  have hy2 : y + (m0 + δ - 1) / 12 = (if m0 + δ = 13 then y + 1 else y) := by
    split_ifs <;> omega
  have hm2 : (m0 + δ - 1) % 12 + 1 = (if m0 + δ = 13 then 1 else m0 + δ) := by
    split_ifs <;> omega
  have hs := goDate_spec2 y (m0 + δ) 1 0 0 0 0 X.loc _ _ hy2 hm2
    (by simp [nsPerDay, nsPerHour, nsPerMin, nsPerSec])
  have hnf := add_neg_one_fields (goDate y (m0 + δ) 1 0 0 0 0 X.loc)
    _ _ (by split_ifs <;> omega) hs.1 (by simpa using hs.2.1)
  rw [hstep]
  refine ⟨?_, ?_, hnf.2.1, by rw [hnf.2.2]; exact hs.2.2⟩
  · show ((goDate y (m0 + δ) 1 0 0 0 0 X.loc).add (-1)).dateOf.1 = y
    rw [hnf.1]
    split_ifs with h13 <;> dsimp only <;> omega
  · show ((goDate y (m0 + δ) 1 0 0 0 0 X.loc).add (-1)).dateOf.2.1 = m0 + δ - 1
    rw [hnf.1]
    split_ifs with h13 <;> dsimp only <;> omega

set_option maxRecDepth 4000 in
/-- Quarter boundary idempotence over the end-of-quarter map. -/
theorem boQuarter_of_end (t : Timex) (r : Rule) :
    (Timex.mk t.EndOfQuarter r).BeginningOfQuarter = t.BeginningOfQuarter := by
  have hv := civilFromDays_valid t.time.wallDays
  have hm : 1 ≤ t.time.monthOf ∧ t.time.monthOf ≤ 12 := by
    unfold GoTime.monthOf GoTime.dateOf
    exact ⟨hv.1, hv.2.1⟩
  obtain ⟨hb1, hb2, hb3⟩ := beginningOfQuarter_spec t
  have hbl := block_end_fields t.time.yearOf (t.time.monthOf - (t.time.monthOf - 1) % 3) 3
    t.BeginningOfQuarter hb1 hb2 (by omega)
  obtain ⟨hb1', hb2', hb3'⟩ := beginningOfQuarter_spec (Timex.mk t.EndOfQuarter r)
  have hEoQ : t.EndOfQuarter = (t.BeginningOfQuarter.addDate 0 3 0).add (-1) := rfl
  refine goTime_eq_of_fields _ _ ?_ (by rw [hb2', hb2]) ?_
  · rw [hb1', hb1]
    dsimp only
    rw [hEoQ, hbl.1, hbl.2.1]
    congr 1
    omega
  · rw [hb3', hb3]
    dsimp only
    rw [hEoQ, hbl.2.2.2, hb3]

set_option maxRecDepth 4000 in
/-- Half-year boundary idempotence over the end-of-half map. -/
theorem boHalf_of_end (t : Timex) (r : Rule) :
    (Timex.mk t.EndOfHalf r).BeginningOfHalf = t.BeginningOfHalf := by
  have hv := civilFromDays_valid t.time.wallDays
  have hm : 1 ≤ t.time.monthOf ∧ t.time.monthOf ≤ 12 := by
    unfold GoTime.monthOf GoTime.dateOf
    exact ⟨hv.1, hv.2.1⟩
  obtain ⟨hb1, hb2, hb3⟩ := beginningOfHalf_spec t
  have hbl := block_end_fields t.time.yearOf (t.time.monthOf - (t.time.monthOf - 1) % 6) 6
    t.BeginningOfHalf hb1 hb2 (by omega)
  obtain ⟨hb1', hb2', hb3'⟩ := beginningOfHalf_spec (Timex.mk t.EndOfHalf r)
  have hEoH : t.EndOfHalf = (t.BeginningOfHalf.addDate 0 6 0).add (-1) := rfl
  refine goTime_eq_of_fields _ _ ?_ (by rw [hb2', hb2]) ?_
  · rw [hb1', hb1]
    dsimp only
    rw [hEoH, hbl.1, hbl.2.1]
    congr 1
    omega
  · rw [hb3', hb3]
    dsimp only
    rw [hEoH, hbl.2.2.2, hb3]

/-- Year boundary idempotence over the end-of-year map. -/
theorem boYear_of_end (t : Timex) (r : Rule) :
    (Timex.mk t.EndOfYear r).BeginningOfYear = t.BeginningOfYear := by
  obtain ⟨hb1, hb2, hb3⟩ := beginningOfYear_spec t
  have hf := firstOfMonth_fields t.BeginningOfYear t.time.yearOf 1 (by omega) hb1
  have hstep : t.BeginningOfYear.addDate 1 0 0
      = goDate (t.time.yearOf + 1) 1 1 0 0 0 0 t.time.loc := by
    rw [addDate_tod0 t.BeginningOfYear 1 0 0 hb2, hf.1, hf.2.1, hf.2.2, hb3]
    norm_num
  have hs := goDate_spec (t.time.yearOf + 1) 1 1 0 0 0 0 t.time.loc (by omega)
    (by simp [nsPerDay, nsPerHour, nsPerMin, nsPerSec])
  have hnf := add_neg_one_fields (goDate (t.time.yearOf + 1) 1 1 0 0 0 0 t.time.loc)
    (t.time.yearOf + 1) 1 (by omega) hs.1 (by simpa using hs.2.1)
  have hEoY : t.EndOfYear = (goDate (t.time.yearOf + 1) 1 1 0 0 0 0 t.time.loc).add (-1) := by
    unfold Timex.EndOfYear
    rw [hstep]
  obtain ⟨hb1', hb2', hb3'⟩ := beginningOfYear_spec (Timex.mk t.EndOfYear r)
  have hyv : t.EndOfYear.yearOf = t.time.yearOf := by
    show t.EndOfYear.dateOf.1 = _
    rw [hEoY, hnf.1]
    rw [if_pos rfl]
    dsimp only
    omega
  refine goTime_eq_of_fields _ _ ?_ (by rw [hb2', hb2]) ?_
  · rw [hb1', hb1]
    dsimp only
    rw [hyv]
  · rw [hb3', hb3]
    dsimp only
    rw [hEoY, hnf.2.2]
    exact hs.2.2

/-- C9: for every timestamp and every period in minute, hour, day, week,
month, quarter, half and year, applying the corresponding beginning-of
operation to the end-of-period time (wrapped with the same rule) yields the
same result as applying it to the original time: boundary identification is
idempotent across the end-of-period map. The week case assumes the
configured week start day is a valid weekday (0 to 6), as all
`time.Weekday` values are. -/
theorem claim_C9_boundary_idempotence (t : Timex)
    (hws : 0 ≤ t.rule.weekStartDay ∧ t.rule.weekStartDay < 7) :
    (Timex.mk t.EndOfMinute t.rule).BeginningOfMinute = t.BeginningOfMinute ∧
    (Timex.mk t.EndOfHour t.rule).BeginningOfHour = t.BeginningOfHour ∧
    (Timex.mk t.EndOfDay t.rule).BeginningOfDay = t.BeginningOfDay ∧
    (Timex.mk t.EndOfWeek t.rule).BeginningOfWeek = t.BeginningOfWeek ∧
    (Timex.mk t.EndOfMonth t.rule).BeginningOfMonth = t.BeginningOfMonth ∧
    (Timex.mk t.EndOfQuarter t.rule).BeginningOfQuarter = t.BeginningOfQuarter ∧
    (Timex.mk t.EndOfHalf t.rule).BeginningOfHalf = t.BeginningOfHalf ∧
    (Timex.mk t.EndOfYear t.rule).BeginningOfYear = t.BeginningOfYear :=
  ⟨boMin_of_end t t.rule, boHour_of_end t t.rule, boDay_of_end t t.rule,
   boWeek_of_end t hws, boMonth_of_end t t.rule, boQuarter_of_end t t.rule,
   boHalf_of_end t t.rule, boYear_of_end t t.rule⟩

/-- Witness for C9 at a concrete rule and timestamp (Monday week start,
2024-03-20 14:30:00 UTC): the day and month cases, instantiated. -/
theorem claim_C9_boundary_idempotence_witness :
    (0 ≤ (Rule.mk 1 none []).weekStartDay ∧ (Rule.mk 1 none []).weekStartDay < 7) ∧
    (Timex.mk (Timex.mk (goDate 2024 3 20 14 30 0 0 utcLoc) (Rule.mk 1 none [])).EndOfDay
        (Rule.mk 1 none [])).BeginningOfDay
      = (Timex.mk (goDate 2024 3 20 14 30 0 0 utcLoc) (Rule.mk 1 none [])).BeginningOfDay ∧
    (Timex.mk (Timex.mk (goDate 2024 3 20 14 30 0 0 utcLoc) (Rule.mk 1 none [])).EndOfMonth
        (Rule.mk 1 none [])).BeginningOfMonth
      = (Timex.mk (goDate 2024 3 20 14 30 0 0 utcLoc) (Rule.mk 1 none [])).BeginningOfMonth := by
  have h := claim_C9_boundary_idempotence
    (Timex.mk (goDate 2024 3 20 14 30 0 0 utcLoc) (Rule.mk 1 none [])) (by decide)
  exact ⟨by decide, h.2.2.1, h.2.2.2.2.1⟩

/-- C1: refuted on the source.  The named return values of `Timex.Parse` are
reassigned by every `parseWithFormat` call, so a candidate that fails after a
successful one replaces the merged value with the zero time and surfaces the
parse error: `Parse("2023-10-25")` returns the merged timestamp and no
error, but `Parse("2023-10-25", "bogus")` returns the zero time and the
error for "bogus" instead of the previously merged value. -/
theorem claim_C1_parse_clobbers :
    refMarch.Parse ["2023-10-25"] = (goDate 2023 10 25 0 0 0 0 utcLoc, none) ∧
    refMarch.Parse ["2023-10-25", "bogus"] = (zeroGoTime, some "bogus") := by
  exact ⟨by decide, by decide⟩

/-- C2: refuted on the source.  In a leap year the first branch of
`GetWeekdaysInRange` keeps only February 29, so the claimed six March 2024
weekdays come back as the empty list; in a non-leap year the second branch
keeps every weekday, as on the March 2023 range. -/
theorem claim_C2_weekdays_leap_dropped :
    GetWeekdaysInRange (goDate 2024 3 1 0 0 0 0 utcLoc) (goDate 2024 3 10 0 0 0 0 utcLoc)
      = [] ∧
    GetWeekdaysInRange (goDate 2023 3 1 0 0 0 0 utcLoc) (goDate 2023 3 10 0 0 0 0 utcLoc)
      = [goDate 2023 3 1 0 0 0 0 utcLoc, goDate 2023 3 2 0 0 0 0 utcLoc,
         goDate 2023 3 3 0 0 0 0 utcLoc, goDate 2023 3 6 0 0 0 0 utcLoc,
         goDate 2023 3 7 0 0 0 0 utcLoc, goDate 2023 3 8 0 0 0 0 utcLoc,
         goDate 2023 3 9 0 0 0 0 utcLoc, goDate 2023 3 10 0 0 0 0 utcLoc] := by
  exact ⟨by decide, by decide⟩

/-- C3: with the default formats and reference 2024-03-15 10:00:00 UTC, the
candidate "13:15" is classified as carrying (only) a time, parses under the
layout `15:4`, and the merge keeps the reference date while taking
hour 13, minute 15, second 0 from the string. -/
theorem claim_C3_time_only_backfill :
    applyTimeMatch "13:15" = true ∧ onlyTimeMatch "13:15" = true ∧
    refMarch.Parse ["13:15"] = (goDate 2024 3 15 13 15 0 0 utcLoc, none) := by
  exact ⟨by decide, by decide, by decide⟩

/-- C5: refuted on the free function.  Every `Timex` boundary method returns
a time in the location of the wrapped time, but `BeginOfDay` of `timefy.go`
builds its result in `v.Local().Location()`: when the system-local zone
differs from the location of the input, the output location differs from the
input location. -/
theorem claim_C5_boundary_location :
    (∀ t : Timex,
      t.BeginningOfMinute.loc = t.time.loc ∧ t.BeginningOfHour.loc = t.time.loc ∧
      t.BeginningOfDay.loc = t.time.loc ∧ t.BeginningOfWeek.loc = t.time.loc ∧
      t.BeginningOfMonth.loc = t.time.loc ∧ t.BeginningOfQuarter.loc = t.time.loc ∧
      t.BeginningOfHalf.loc = t.time.loc ∧ t.BeginningOfYear.loc = t.time.loc ∧
      t.EndOfMinute.loc = t.time.loc ∧ t.EndOfHour.loc = t.time.loc ∧
      t.EndOfDay.loc = t.time.loc ∧ t.EndOfWeek.loc = t.time.loc ∧
      t.EndOfMonth.loc = t.time.loc ∧ t.EndOfQuarter.loc = t.time.loc ∧
      t.EndOfHalf.loc = t.time.loc ∧ t.EndOfYear.loc = t.time.loc) ∧
    (BeginOfDay (Loc.mk "Local" 25200) (goDate 2024 3 15 10 0 0 0 utcLoc)).loc
      ≠ (goDate 2024 3 15 10 0 0 0 utcLoc).loc :=
  ⟨fun _ => ⟨rfl, rfl, rfl, rfl, rfl, rfl, rfl, rfl, rfl, rfl, rfl, rfl, rfl, rfl, rfl, rfl⟩,
   by decide⟩

/-- C6 counterexample: `WithLocationRFC` on a failing name does NOT keep the
previous location: a rule whose location was UTC ends with no location. -/
theorem claim_C6_withLocationRFC_cex :
    ((Rule.mk 0 (some utcLoc) []).WithLocationRFC "Not/AZone").timeLocation = none ∧
    (Rule.mk 0 (some utcLoc) []).timeLocation ≠ none :=
  ⟨rfl, by decide⟩

/-- C6 amended: `WithLocationRFC` stores the lookup result unconditionally
(`nil` on failure) and surfaces no error; the other fields are unchanged. -/
theorem claim_C6_withLocationRFC_amended (c : Rule) (location : String) :
    (c.WithLocationRFC location).timeLocation = loadLocation location ∧
    (c.WithLocationRFC location).weekStartDay = c.weekStartDay ∧
    (c.WithLocationRFC location).timeFormats = c.timeFormats :=
  ⟨rfl, rfl, rfl⟩

/-- C7: on a failing zone lookup `SetTimezone` returns the input unchanged
with a non-nil error and `AdjustTimezone` returns the input unchanged; on a
successful lookup both return the input converted to the zone. -/
theorem claim_C7_timezone_handling (v : GoTime) (tz : String) :
    (loadLocation tz = none →
      SetTimezone v tz = (v, some tz) ∧ AdjustTimezone v tz = v) ∧
    (∀ loc, loadLocation tz = some loc →
      SetTimezone v tz = (v.inLoc loc, none) ∧ AdjustTimezone v tz = v.inLoc loc) := by
  constructor
  · intro h
    simp [SetTimezone, AdjustTimezone, h]
  · intro loc h
    simp [SetTimezone, AdjustTimezone, h]

/-- Witness for C7: the unknown zone of the tests and a known zone. -/
theorem claim_C7_timezone_handling_witness :
    SetTimezone (goDate 2024 3 15 10 0 0 0 utcLoc) "Not/AZone"
      = (goDate 2024 3 15 10 0 0 0 utcLoc, some "Not/AZone") ∧
    AdjustTimezone (goDate 2024 3 15 10 0 0 0 utcLoc) "Not/AZone"
      = goDate 2024 3 15 10 0 0 0 utcLoc ∧
    AdjustTimezone (goDate 2024 3 15 10 0 0 0 utcLoc) "Asia/Ho_Chi_Minh"
      = (goDate 2024 3 15 10 0 0 0 utcLoc).inLoc ⟨"Asia/Ho_Chi_Minh", 25200⟩ := by
  refine ⟨?_, ?_, ?_⟩
  · exact ((claim_C7_timezone_handling (goDate 2024 3 15 10 0 0 0 utcLoc) "Not/AZone").1
      (by decide)).1
  · exact ((claim_C7_timezone_handling (goDate 2024 3 15 10 0 0 0 utcLoc) "Not/AZone").1
      (by decide)).2
  · exact ((claim_C7_timezone_handling (goDate 2024 3 15 10 0 0 0 utcLoc)
      "Asia/Ho_Chi_Minh").2 ⟨"Asia/Ho_Chi_Minh", 25200⟩ (by decide)).2

/-- C8: the relative-time tables at the claimed bucket boundaries, and the
negative-duration short circuit of `TimeUntil`. -/
theorem claim_C8_relative_time (d : Int) (hd : d < 0) :
    timeAgoOfDiff (59 * nsPerSec) = "just now" ∧
    timeUntilOfDiff (59 * nsPerSec) = "in a few seconds" ∧
    timeAgoOfDiff (90 * nsPerSec) = "1 minute ago" ∧
    timeUntilOfDiff (90 * nsPerSec) = "in 1 minute" ∧
    timeAgoOfDiff (25 * 3600 * nsPerSec) = "1 day ago" ∧
    timeUntilOfDiff (25 * 3600 * nsPerSec) = "in 1 day" ∧
    timeUntilOfDiff d = "in the past" := by
  refine ⟨by decide, by decide, by decide, by decide, by decide, by decide, ?_⟩
  unfold timeUntilOfDiff
  rw [if_pos hd]

/-- Witness for C8 at the concrete negative duration -1 ns. -/
theorem claim_C8_relative_time_witness :
    (-1 : Int) < 0 ∧ timeUntilOfDiff (-1) = "in the past" :=
  ⟨by decide, (claim_C8_relative_time (-1) (by decide)).2.2.2.2.2.2⟩

/-- C10: `Between` panics (here: `none`) exactly when one of the two bound
strings fails to parse, and otherwise compares strictly on both sides. -/
theorem claim_C10_between_strict (t : Timex) (b e : String) :
    (t.Between b e = none ↔ (t.Parse [b]).2 ≠ none ∨ (t.Parse [e]).2 ≠ none) ∧
    (∀ bt et, t.MustParse [b] = some bt → t.MustParse [e] = some et →
      t.Between b e = some (t.time.after bt && t.time.before et)) := by
  constructor
  · rcases hb : t.Parse [b] with ⟨vb, ob⟩
    rcases he : t.Parse [e] with ⟨ve, oe⟩
    cases ob <;> cases oe <;>
      simp [Timex.Between, Timex.MustParse, hb, he]
  · intro bt et h1 h2
    unfold Timex.Between
    rw [h1, h2]

/-- Witness for C10: a reference in October 2023, bounds that parse (and one
that does not). -/
theorem claim_C10_between_strict_witness :
    refOct.Between "2023-10-01" "2023-10-31" = some true ∧
    refOct.Between "2023-10-01" "bogus" = none := by
  constructor
  · have h := (claim_C10_between_strict refOct "2023-10-01" "2023-10-31").2
      (goDate 2023 10 1 0 0 0 0 utcLoc) (goDate 2023 10 31 0 0 0 0 utcLoc)
      (by decide) (by decide)
    exact h.trans (by decide)
  · exact (claim_C10_between_strict refOct "2023-10-01" "bogus").1.mpr (Or.inr (by decide))

end Timefy
